import Mathlib

/-! The front-end scripts of the site: `static/js/theme-toggle.js`,
`static/js/scrollspy.js` and `static/js/accessibility.js`.

A shallow embedding of the `ThemeToggle` class: the cookie codec
(`getCookie`, `setCookie`, `deleteCookie`), the resolution of the initial
preference, `applyTheme`, the toggle affordances and the event handlers; of the
top level of `theme-toggle.js`, which guards against a second load; of the
three scroll-driven features of `scrollspy.js` with their `ticking` flags; and
of the announcement region of `accessibility.js`.

JavaScript strings are lists of characters.  The browser is a `Page`: the
part of the DOM the class reads and writes, the cookie jar behind
`document.cookie`, the colour-scheme media query, the clock, and logs of what
the class sends out (`themeChanged` events, console warnings, timers).  A
statement of the class that may throw returns `Except JSError`; `try`/`catch`
is `tryCatch`.
-/

namespace ThemeToggle

/-! ## JavaScript strings and values -/

/-- A JavaScript string, as its list of characters. -/
abbrev JSString := List Char

/-- A JavaScript value, as far as `setTheme` tells values apart. -/
inductive JSValue where
  | undefined
  | null
  | boolean (b : Bool)
  | number (n : Int)
  | string (s : JSString)
  deriving DecidableEq, Repr

/-- The only exception of the model: cookie access refused by the browser. -/
inductive JSError where
  | securityError
  deriving DecidableEq, Repr

/-- Whether `s` begins with `p` (`p` matched at position 0 of `s`). -/
def startsWith : JSString → JSString → Bool
  | _, [] => true
  | [], _ :: _ => false
  | c :: cs, p :: ps => c == p && startsWith cs ps

/-- Scanner of `String.prototype.split` for a non-empty separator: `k` is the
number of characters of a matched separator still to be consumed, `acc` the
current piece, reversed. -/
def splitGo (sep : JSString) : JSString → Nat → JSString → List JSString
  | [], _, acc => [acc.reverse]
  | _ :: cs, k + 1, acc => splitGo sep cs k acc
  | c :: cs, 0, acc =>
    if startsWith (c :: cs) sep then acc.reverse :: splitGo sep cs (sep.length - 1) []
    else splitGo sep cs 0 (c :: acc)

/-- The call `s.split(sep)`: the pieces of `s` between the non-overlapping
occurrences of `sep`, found from left to right; with the empty separator, the
characters of `s`. -/
def jsSplit (s sep : JSString) : List JSString :=
  if sep = [] then s.map fun c => [c] else splitGo sep s 0 []

/-- Truthiness of the result of `getCookie`: `null` and `""` are falsy. -/
def truthy : Option JSString → Bool
  | some (_ :: _) => true
  | _ => false

/-- The expression `a || b` for `a` a string or `null` and `b` a string. -/
def jsOr (a : Option JSString) (b : JSString) : JSString :=
  match a with
  | some (c :: cs) => c :: cs
  | _ => b

/-! ## Constants of the class -/

/-- The field `this.themeKey`, set once in the constructor. -/
def themeKey : JSString := "theme-preference".toList

/-- The string `"light"`. -/
def light : JSString := "light".toList

/-- The string `"dark"`. -/
def dark : JSString := "dark".toList

/-! ## The page -/

/-- The `<i>` element found by `toggle.querySelector("i")`. -/
structure IconElement where
  className : JSString
  ariaHidden : Option JSString
  deriving DecidableEq, Repr

/-- An element matching `.theme-toggle`: its own attributes, and what
`querySelector("i")` and `querySelector(".theme-text")` find below it. -/
structure ToggleElement where
  ariaLabel : Option JSString
  title : Option JSString
  ariaPressed : Option JSString
  icon : Option IconElement
  text : Option JSString
  /-- Whether the `<i>` sits inside the `.theme-text` element, where an
  assignment to `textContent` removes it. -/
  iconInText : Bool := false
  deriving DecidableEq, Repr

/-- The part of the DOM the class touches. -/
structure Document where
  /-- The `data-theme` attribute of `document.documentElement`. -/
  dataTheme : Option JSString
  /-- The `content` of every `meta[name="theme-color"]`, in document order. -/
  themeColorMetas : List JSString
  /-- The elements matching `.theme-toggle`, in document order. -/
  toggles : List ToggleElement
  /-- Whether `document.querySelector(".navbar-nav")` finds an element. -/
  navbar : Bool
  /-- The inline style `document.body.style.transition`. -/
  bodyTransition : JSString
  deriving DecidableEq, Repr

/-- A cookie: the pair `document.cookie` lists, and the path and the domain
that, with the name, are its key in the browser's store.  The domain is `none`
for a host-only cookie, one set without a `Domain` attribute. -/
structure Cookie where
  name : JSString
  value : JSString
  path : JSString
  domain : Option JSString := none
  deriving DecidableEq, Repr

/-- The cookie jar: the cookies visible to the page, in the order
`document.cookie` lists them. -/
abbrev CookieJar := List Cookie

/-- The browser state the class runs in. -/
structure Page where
  document : Document
  cookieJar : CookieJar
  /-- Reading `document.cookie` throws. -/
  cookieReadThrows : Bool
  /-- Assigning to `document.cookie` throws. -/
  cookieWriteThrows : Bool
  /-- The colour-scheme signal: `none` when `window.matchMedia` is missing, else
  `matchMedia("(prefers-color-scheme: light)").matches`. -/
  prefersLight : Option Bool
  /-- The clock, `new Date().getTime()`. -/
  now : Nat
  /-- Whether the controller listens to `change` on the media query. -/
  mediaListener : Bool
  /-- Whether the controller listens to `click` on the document. -/
  clickListener : Bool
  /-- Whether the controller listens to `keydown` on the document. -/
  keydownListener : Bool
  /-- The `detail.theme` of every `themeChanged` event dispatched so far. -/
  dispatched : List JSString
  /-- The messages passed to `console.warn` so far. -/
  warnings : List JSString
  /-- The delays of the `setTimeout` callbacks scheduled so far. -/
  timers : List Nat
  deriving DecidableEq, Repr

/-- A controller: the field `this.currentTheme` and the page it lives in. -/
structure Controller where
  currentTheme : JSString
  page : Page
  deriving DecidableEq, Repr

/-! ## document.cookie -/

/-- The text of one cookie in `document.cookie`. -/
def cookiePair (c : Cookie) : JSString :=
  c.name ++ '=' :: c.value

/-- The text `document.cookie` reads as: the pairs joined by `"; "`. -/
def serializeJar (jar : CookieJar) : JSString :=
  "; ".toList.intercalate (jar.map cookiePair)

/-- What is assigned to `document.cookie`: the text before the first
attribute, and the attributes. -/
structure CookieAssignment where
  nameValue : JSString
  /-- The `expires` attribute, in milliseconds since the epoch. -/
  expires : Nat
  path : JSString
  sameSite : Option JSString
  /-- The `Domain` attribute; `none` when the assignment has none. -/
  domain : Option JSString := none
  deriving DecidableEq, Repr

/-- A text without the spaces and tabs at its two ends. -/
def trimBlanks (s : JSString) : JSString :=
  ((s.dropWhile fun c => c == ' ' || c == '\t').reverse.dropWhile
    fun c => c == ' ' || c == '\t').reverse

/-- The name and value the browser reads off an assignment: the text up to the
first `;`, cut at its first `=` (all of it is the value when there is none),
each without the blanks at its ends. -/
def parseNameValue (nameValue : JSString) : JSString × JSString :=
  let pair := nameValue.takeWhile (· != ';')
  if pair.contains '=' then
    (trimBlanks (pair.takeWhile (· != '=')),
      trimBlanks ((pair.dropWhile (· != '=')).drop 1))
  else ([], trimBlanks pair)

/-- Store a cookie, in the place of the cookie of the same name, domain and
path if there is one, else at the end. -/
def jarPut : CookieJar → Cookie → CookieJar
  | [], new => [new]
  | c :: rest, new =>
    if c.name = new.name ∧ c.domain = new.domain ∧ c.path = new.path then new :: rest
    else c :: jarPut rest new

/-- Remove the cookie of this name, domain and path. -/
def jarErase (jar : CookieJar) (name : JSString) (domain : Option JSString)
    (path : JSString) : CookieJar :=
  jar.filter fun c => ¬(c.name = name ∧ c.domain = domain ∧ c.path = path)

/-- The jar after an assignment to `document.cookie` that the browser carries
out: an expiry that is not in the future removes the cookie of that name,
domain and path, any other stores it. -/
def jarAssign (jar : CookieJar) (now : Nat) (a : CookieAssignment) : CookieJar :=
  let nv := parseNameValue a.nameValue
  if a.expires ≤ now then jarErase jar nv.1 a.domain a.path
  else jarPut jar { name := nv.1, value := nv.2, path := a.path, domain := a.domain }

/-- Reading `document.cookie`. -/
def Page.getDocumentCookie (p : Page) : Except JSError JSString :=
  if p.cookieReadThrows then throw JSError.securityError
  else pure (serializeJar p.cookieJar)

/-- Assigning to `document.cookie`. -/
def Page.setDocumentCookie (p : Page) (a : CookieAssignment) : Except JSError Page :=
  if p.cookieWriteThrows then throw JSError.securityError
  else pure { p with cookieJar := jarAssign p.cookieJar p.now a }

/-- The call `console.warn(message, e)`. -/
def Page.consoleWarn (p : Page) (message : JSString) : Page :=
  { p with warnings := p.warnings ++ [message] }

/-! ## The cookie codec of the class -/

/-- The method `getCookie(name)`. -/
def getCookie (p : Page) (name : JSString) : Except JSError (Option JSString) := do
  let cookie ← p.getDocumentCookie
  let value := "; ".toList ++ cookie
  let parts := jsSplit value ("; ".toList ++ name ++ "=".toList)
  if parts.length = 2 then
    pure (parts.getLast?.bind fun last => (jsSplit last ";".toList).head?)
  else
    pure none

/-- The method `setCookie(name, value, days = 365)`. -/
def setCookie (p : Page) (name value : JSString) (days : Nat := 365) :
    Except JSError Page :=
  let expires := p.now + days * 24 * 60 * 60 * 1000
  p.setDocumentCookie
    { nameValue := name ++ "=".toList ++ value, expires := expires,
      path := "/".toList, sameSite := some "Lax".toList, domain := none }

/-- The method `deleteCookie(name)`. -/
def deleteCookie (p : Page) (name : JSString) : Except JSError Page :=
  p.setDocumentCookie
    { nameValue := name ++ "=".toList, expires := 0, path := "/".toList, sameSite := none,
      domain := none }

/-- The method `getStoredTheme()`: the cookie value or `null`, and the page
(with a warning logged when the read threw). -/
def getStoredTheme (p : Page) : Except JSError (Option JSString × Page) :=
  tryCatch (do let v ← getCookie p themeKey; pure (v, p))
    fun _ => pure (none, p.consoleWarn "Could not access cookies:".toList)

/-- The method `getSystemTheme()`. -/
def getSystemTheme (p : Page) : JSString :=
  match p.prefersLight with
  | some true => light
  | _ => dark

/-- The method `storeTheme(theme)`. -/
def storeTheme (p : Page) (theme : JSString) : Except JSError Page :=
  tryCatch (setCookie p themeKey theme)
    fun _ => pure (p.consoleWarn "Could not store theme preference:".toList)

/-! ## The controller -/

/-- Apply `f` to the document of the controller's page. -/
def Controller.mapDocument (t : Controller) (f : Document → Document) : Controller :=
  { t with page := { t.page with document := f t.page.document } }

/-- The method `getCurrentTheme()`. -/
def getCurrentTheme (t : Controller) : JSString :=
  t.currentTheme

/-- The method `updateMetaThemeColor()`: the first `meta[name="theme-color"]`,
created at the end of the head when there is none, gets the colour of the
current theme. -/
def updateMetaThemeColor (t : Controller) : Controller :=
  let color := if t.currentTheme = light then "#fbf1c7".toList else "#1d2021".toList
  t.mapDocument fun d =>
    match d.themeColorMetas with
    | [] => { d with themeColorMetas := [color] }
    | _ :: rest => { d with themeColorMetas := color :: rest }

/-- The method `applyTheme(theme)`. -/
def applyTheme (t : Controller) (theme : JSString) : Except JSError Controller := do
  let t := t.mapDocument fun d => { d with dataTheme := none }
  let t := if theme = light then t.mapDocument fun d => { d with dataTheme := some light } else t
  let t := { t with currentTheme := theme }
  let p ← storeTheme t.page theme
  let t := updateMetaThemeColor { t with page := p }
  pure { t with page := { t.page with dispatched := t.page.dispatched ++ [theme] } }

/-- The text `Switch to ${currentTheme === "light" ? "dark" : "light"} theme`. -/
def switchLabel (currentTheme : JSString) : JSString :=
  "Switch to ".toList ++ (if currentTheme = light then dark else light) ++ " theme".toList

/-- The method `createToggleButton()`: nothing when the document has a toggle;
else a button is built, and attached only when there is a navbar. -/
def createToggleButton (t : Controller) : Controller :=
  if t.page.document.toggles ≠ [] then t
  else
    let icon : IconElement :=
      { className := if t.currentTheme = light then "bi bi-moon-fill".toList
                     else "bi bi-sun-fill".toList,
        ariaHidden := some "true".toList }
    let toggle : ToggleElement :=
      { ariaLabel := some (switchLabel t.currentTheme),
        title := some (switchLabel t.currentTheme),
        ariaPressed := some (if t.currentTheme = light then "false".toList else "true".toList),
        icon := some icon,
        text := none }
    if t.page.document.navbar then t.mapDocument fun d => { d with toggles := [toggle] }
    else t

/-- The body of the `forEach` in `updateToggleButton()`, for one toggle. -/
def refreshToggle (currentTheme : JSString) (toggle : ToggleElement) : ToggleElement :=
  let toggle :=
    match toggle.icon with
    | some _ =>
      { toggle with
        icon := some
          { className := if currentTheme = light then "bi bi-moon-fill".toList
                         else "bi bi-sun-fill".toList,
            ariaHidden := some "true".toList },
        ariaLabel := some (switchLabel currentTheme),
        title := some (switchLabel currentTheme),
        ariaPressed := some (if currentTheme = light then "false".toList else "true".toList) }
    | none => toggle
  match toggle.text with
  | some _ =>
    { toggle with
      text := some (if currentTheme = light then "Dark".toList else "Light".toList),
      icon := if toggle.iconInText then none else toggle.icon }
  | none => toggle

/-- The method `updateToggleButton()`. -/
def updateToggleButton (t : Controller) : Controller :=
  t.mapDocument fun d => { d with toggles := d.toggles.map (refreshToggle t.currentTheme) }

/-- The method `toggleTheme()`. -/
def toggleTheme (t : Controller) : Except JSError Controller := do
  let newTheme := if t.currentTheme = light then dark else light
  let t ← applyTheme t newTheme
  let t := updateToggleButton t
  let t := t.mapDocument fun d => { d with bodyTransition := "none".toList }
  pure { t with page := { t.page with timers := t.page.timers ++ [100] } }

/-- The method `setTheme(theme)`. -/
def setTheme (t : Controller) (theme : JSValue) : Except JSError Controller :=
  match theme with
  | JSValue.string s =>
    if s = light ∨ s = dark then do
      let t ← applyTheme t s
      pure (updateToggleButton t)
    else pure t
  | _ => pure t

/-- The listener of `change` on the media query, bound in `bindEvents()`. -/
def onSystemThemeChange (t : Controller) (eMatches : Bool) : Except JSError Controller := do
  let (stored, p) ← getStoredTheme t.page
  let t := { t with page := p }
  if !truthy stored then
    let t ← applyTheme t (if eMatches then light else dark)
    pure (updateToggleButton t)
  else pure t

/-- The listener of `click` on the document, bound in `bindEvents()`;
`insideToggle` is whether `e.target.closest(".theme-toggle")` finds an element. -/
def onClick (t : Controller) (insideToggle : Bool) : Except JSError Controller :=
  if insideToggle then toggleTheme t else pure t

/-- The listener of `keydown` on the document, bound in `bindEvents()`. -/
def onKeydown (t : Controller) (ctrlKey metaKey shiftKey : Bool) (key : JSString) :
    Except JSError Controller :=
  if (ctrlKey || metaKey) && shiftKey && key == "T".toList then toggleTheme t else pure t

/-- The method `bindEvents()`: the media-query listener is bound only when
`window.matchMedia` exists. -/
def bindEvents (t : Controller) : Controller :=
  { t with page :=
      { t.page with
        clickListener := true,
        mediaListener := t.page.mediaListener || t.page.prefersLight.isSome,
        keydownListener := true } }

/-- The method `init()`. -/
def init (t : Controller) : Except JSError Controller := do
  let t ← applyTheme t t.currentTheme
  let t := createToggleButton t
  let t := bindEvents t
  pure (updateMetaThemeColor t)

/-- The constructor `new ThemeToggle()`, run in page `p`. -/
def construct (p : Page) : Except JSError Controller := do
  let (stored, p) ← getStoredTheme p
  let currentTheme := jsOr stored (getSystemTheme p)
  init { currentTheme := currentTheme, page := p }

/-! ## What happens to a controller -/

/-- A call of the public interface, or an event the controller listens to. -/
inductive Action where
  | toggleTheme
  | setTheme (theme : JSValue)
  /-- The colour-scheme signal changes; `eMatches` is the new `e.matches`. -/
  | systemThemeChange (eMatches : Bool)
  | click (insideToggle : Bool)
  | keydown (ctrlKey metaKey shiftKey : Bool) (key : JSString)
  deriving DecidableEq, Repr

/-- One action on a controller.  An event reaches its listener only when the
listener is bound; a change of the signal can only happen where
`window.matchMedia` exists, and is seen by later calls of `getSystemTheme`. -/
def step (t : Controller) : Action → Except JSError Controller
  | Action.toggleTheme => toggleTheme t
  | Action.setTheme theme => setTheme t theme
  | Action.systemThemeChange eMatches =>
    match t.page.prefersLight with
    | none => pure t
    | some _ =>
      let t := { t with page := { t.page with prefersLight := some eMatches } }
      if t.page.mediaListener then onSystemThemeChange t eMatches else pure t
  | Action.click insideToggle =>
    if t.page.clickListener then onClick t insideToggle else pure t
  | Action.keydown ctrlKey metaKey shiftKey key =>
    if t.page.keydownListener then onKeydown t ctrlKey metaKey shiftKey key else pure t

/-- A sequence of actions, stopping at the first exception. -/
def run (t : Controller) : List Action → Except JSError Controller
  | [] => pure t
  | a :: rest => do
    let t ← step t a
    run t rest

/-- The result of `n` successive calls of `toggleTheme()`. -/
def toggleTimes (t : Controller) : Nat → Except JSError Controller
  | 0 => pure t
  | n + 1 => do
    let t ← toggleTheme t
    toggleTimes t n

/-! ## The jar as a store of records -/

/-- The cookies called `name`. -/
def jarFind (jar : CookieJar) (name : JSString) : CookieJar :=
  jar.filter fun c => c.name = name

/-- The value of the cookie called `name` when the jar lists exactly one. -/
def lookupUnique (jar : CookieJar) (name : JSString) : Option JSString :=
  match jarFind jar name with
  | [c] => some c.value
  | _ => none

/-- What the browser's parser guarantees of every cookie it lists: no `;` in
the name or the value, no `=` in the name. -/
def CharsOk (jar : CookieJar) : Prop :=
  ∀ c ∈ jar, ';' ∉ c.name ∧ '=' ∉ c.name ∧ ';' ∉ c.value

instance (jar : CookieJar) : Decidable (CharsOk jar) := by
  unfold CharsOk; infer_instance

/-- The store holds exactly one `theme-preference` record, and its value is
not empty. -/
def HasRecord (jar : CookieJar) : Prop :=
  match jarFind jar themeKey with
  | [c] => c.value ≠ []
  | _ => False

instance (jar : CookieJar) : Decidable (HasRecord jar) := by
  unfold HasRecord; split <;> infer_instance

/-- The text of a jar with `"; "` before every pair: `"; " + document.cookie`
for a jar that is not empty. -/
def chunks : CookieJar → JSString
  | [] => []
  | c :: rest => ';' :: ' ' :: (cookiePair c ++ chunks rest)

/-! ## The results of the methods that always return -/

/-- The page after `storeTheme(theme)`. -/
def storedPage (p : Page) (theme : JSString) : Page :=
  if p.cookieWriteThrows then p.consoleWarn "Could not store theme preference:".toList
  else
    { p with
      cookieJar := jarAssign p.cookieJar p.now
        { nameValue := themeKey ++ "=".toList ++ theme,
          expires := p.now + 365 * 24 * 60 * 60 * 1000,
          path := "/".toList, sameSite := some "Lax".toList, domain := none } }

/-- The colour `updateMetaThemeColor()` writes for a current theme. -/
def themeColor (theme : JSString) : JSString :=
  if theme = light then "#fbf1c7".toList else "#1d2021".toList

/-- The controller after `applyTheme(theme)`. -/
def applied (t : Controller) (theme : JSString) : Controller :=
  let p := storedPage t.page theme
  { currentTheme := theme,
    page := { p with
      document := { p.document with
        dataTheme := if theme = light then some light else none,
        themeColorMetas := themeColor theme :: p.document.themeColorMetas.tail },
      dispatched := p.dispatched ++ [theme] } }

/-- The controller after `toggleTheme()`. -/
def toggled (t : Controller) : Controller :=
  let t := updateToggleButton (applied t (if t.currentTheme = light then dark else light))
  let t := t.mapDocument fun d => { d with bodyTransition := "none".toList }
  { t with page := { t.page with timers := t.page.timers ++ [100] } }

/-- The controller after `init()`. -/
def initialised (t : Controller) : Controller :=
  updateMetaThemeColor (bindEvents (createToggleButton (applied t t.currentTheme)))

/-! ## Pages used as examples -/

/-- A document with a navbar and nothing else the class looks for. -/
def plainDocument : Document :=
  { dataTheme := none, themeColorMetas := [], toggles := [], navbar := true,
    bodyTransition := [] }

/-- A page showing `plainDocument`, with the given jar and colour-scheme
signal, whose cookies can be read and written, before any script has run. -/
def pageWith (jar : CookieJar) (prefersLight : Option Bool) : Page :=
  { document := plainDocument, cookieJar := jar, cookieReadThrows := false,
    cookieWriteThrows := false, prefersLight := prefersLight, now := 1700000000000,
    mediaListener := false, clickListener := false, keydownListener := false,
    dispatched := [], warnings := [], timers := [] }

/-- The cookie `name=value` on the path `path`. -/
def cookie (name value path : String) : Cookie :=
  { name := name.toList, value := value.toList, path := path.toList }

/-- A toggle added by the page itself, `<button class="theme-toggle"><span
class="theme-text">Theme</span></button>`: no `<i>` below it, no attributes. -/
def bareToggle : ToggleElement :=
  { ariaLabel := none, title := none, ariaPressed := none, icon := none,
    text := some "Theme".toList }

/-- The page `pageWith [] (some false)` with `bareToggle` in its document. -/
def pageWithBareToggle : Page :=
  { pageWith [] (some false) with
    document := { plainDocument with toggles := [bareToggle] } }

/-- The reference resolution of the initial preference, in the words of the
specification: the persisted `theme-preference` value when a record exists;
otherwise `light` exactly when the environment reports a light colour-scheme
preference; otherwise `dark`. -/
def referenceResolution (p : Page) : JSString :=
  match jarFind p.cookieJar themeKey with
  | c :: _ => c.value
  | [] => if p.prefersLight = some true then light else dark

/-- A store with another cookie and `theme-preference=light`. -/
def lightStore : CookieJar :=
  [cookie "lang" "en" "/", cookie "theme-preference" "light" "/"]

/-- A store with another cookie and `theme-preference=dark`. -/
def darkStore : CookieJar :=
  [cookie "lang" "en" "/", cookie "theme-preference" "dark" "/"]

/-! ## Loading the script `theme-toggle.js` -/

/-- The window as the top level of `theme-toggle.js` sees it. -/
structure Loader where
  page : Page
  /-- The global `window.themeToggle`. -/
  themeToggle : Option Controller
  /-- The number of `DOMContentLoaded` listeners the script has registered. -/
  initialisers : Nat
  /-- Whether `DOMContentLoaded` has been dispatched. -/
  domReady : Bool
  /-- The number of `ThemeToggle` instances constructed so far. -/
  constructed : Nat
  deriving DecidableEq, Repr

/-- The window of a page on which no script has run. -/
def Loader.fresh (p : Page) : Loader :=
  { page := p, themeToggle := none, initialisers := 0, domReady := false, constructed := 0 }

/-- The top level of the script, run at every load: nothing under
`if (window.themeToggle)`, else the class is declared and the initialiser is
registered with `document.addEventListener("DOMContentLoaded", ...)`. -/
def Loader.loadScript (w : Loader) : Loader :=
  match w.themeToggle with
  | some _ => w
  | none => { w with initialisers := w.initialisers + 1 }

/-- The initialiser `() => { window.themeToggle = new ThemeToggle(); }`. -/
def Loader.initialiser (w : Loader) : Loader :=
  match construct w.page with
  | Except.ok c =>
    { w with page := c.page, themeToggle := some c, constructed := w.constructed + 1 }
  | Except.error _ => w

/-- The first `n` registered initialisers, run one after the other. -/
def Loader.runInitialisers : Nat → Loader → Loader
  | 0, w => w
  | n + 1, w => Loader.runInitialisers n w.initialiser

/-- The browser dispatches `DOMContentLoaded`, once: every listener registered
by then runs; one registered later never runs. -/
def Loader.domContentLoaded (w : Loader) : Loader :=
  if w.domReady then w
  else Loader.runInitialisers w.initialisers { w with domReady := true }

/-- What happens to the window while the page loads. -/
inductive LoadEvent where
  | scriptLoad
  | domContentLoaded
  deriving DecidableEq, Repr

/-- The window after a sequence of load events. -/
def Loader.play (w : Loader) : List LoadEvent → Loader
  | [] => w
  | LoadEvent.scriptLoad :: rest => Loader.play w.loadScript rest
  | LoadEvent.domContentLoaded :: rest => Loader.play w.domContentLoaded rest

/-! ## The scroll enhancements of `scrollspy.js` -/

/-- An element matching `section[id], header[id]`. -/
structure Section where
  offsetTop : Int
  offsetHeight : Int
  id : JSString
  /-- For an id that closes the quoted string of the selector before its end:
  whether the browser rejects the selector, as it does unless the rest of the
  id happens to complete one. -/
  selectorRejected : Bool := true
  deriving DecidableEq, Repr

/-- An id that stands inside the quoted string of a selector as it is: it
holds no double quote, no backslash and no line break. -/
def plainId (id : JSString) : Bool :=
  id.all fun c =>
    c != Char.ofNat 34 && c != Char.ofNat 92 && c != Char.ofNat 10 && c != Char.ofNat 13
      && c != Char.ofNat 12

/-- Whether `document.querySelector` throws a `SyntaxError` on the selector
that `updateActiveSection()` builds from the id of this section. -/
def selectorThrows (sec : Section) : Bool :=
  !plainId sec.id && sec.selectorRejected

/-- The two numbers `updateProgress()` computes the progress from: the bar is
`scrollTop / scrollHeight * 100` per cent wide and `aria-valuenow` is
`Math.round` of that, both as floating-point arithmetic gives them. -/
structure ProgressReading where
  scrollTop : ℚ
  scrollHeight : Int
  deriving DecidableEq, Repr

/-- An element matching `#navigation .nav-link[href^="#"]`; `active` is
whether its class list holds `active`. -/
structure NavLink where
  href : JSString
  active : Bool
  deriving DecidableEq, Repr

/-- The part of the window and the document the three scroll features read
and write.  Scroll positions are numbers, taken exactly. -/
structure ScrollDom where
  /-- The position `window.scrollY`, which is `window.pageYOffset`. -/
  scrollY : ℚ
  /-- The position `document.documentElement.scrollTop`. -/
  rootScrollTop : ℚ
  /-- The height `document.documentElement.scrollHeight`. -/
  scrollHeight : Int
  /-- The height `document.documentElement.clientHeight`. -/
  clientHeight : Int
  sections : List Section
  navLinks : List NavLink
  /-- What the width and the `aria-valuenow` of the progress bar were last
  computed from; `none` for the bar as created, with `aria-valuenow="0"`. -/
  progress : Option ProgressReading
  /-- Whether the class list of the scroll-to-top button holds `visible`. -/
  topVisible : Bool
  deriving DecidableEq, Repr

/-- The three functions the script passes to `requestAnimationFrame`. -/
inductive FrameCallback where
  | updateActiveSection
  | updateProgress
  | toggleScrollToTop
  deriving DecidableEq, Repr

/-- The page once `initEnhancedScrollspy()` has installed the three features:
the DOM, the `ticking` variable of each feature, the callbacks passed to
`requestAnimationFrame` that have not run yet, and, for each callback, how
many times it has run. -/
structure ScrollPage where
  dom : ScrollDom
  /-- The variable `ticking` of `addScrollspyEnhancements`. -/
  tickingActive : Bool
  /-- The variable `ticking` of `addProgressIndicator`. -/
  tickingProgress : Bool
  /-- The variable `ticking` of `addScrollToTopButton`. -/
  tickingTop : Bool
  frameQueue : List FrameCallback
  ranActive : Nat
  ranProgress : Nat
  ranTop : Nat
  deriving DecidableEq, Repr

/-- The page right after `initEnhancedScrollspy()`: the progress bar starts
with `aria-valuenow="0"`, the button is not visible, nothing is scheduled. -/
def ScrollPage.installed (dom : ScrollDom) : ScrollPage :=
  { dom := { dom with progress := none, topVisible := false },
    tickingActive := false, tickingProgress := false, tickingTop := false,
    frameQueue := [], ranActive := 0, ranProgress := 0, ranTop := 0 }

/-- The first link with this `href` gets the class `active`: what
`document.querySelector` finds and `classList.add` does, the selector built
from the id being one the browser accepts. -/
def activate : List NavLink → JSString → List NavLink
  | [], _ => []
  | l :: rest, href =>
    if l.href = href then { l with active := true } :: rest else l :: activate rest href

/-- The `forEach` over the sections in `updateActiveSection()`, from the
links as they stand; `Except.error` holds the links as they are when
`document.querySelector` throws. -/
def markSections (scrollPosition : ℚ) :
    List Section → List NavLink → Except (List NavLink) (List NavLink)
  | [], links => Except.ok links
  | sec :: rest, links =>
    if (sec.offsetTop : ℚ) ≤ scrollPosition
        ∧ scrollPosition < (sec.offsetTop : ℚ) + (sec.offsetHeight : ℚ) then
      if selectorThrows sec then
        Except.error (links.map fun l => { l with active := false })
      else
        markSections scrollPosition rest
          (activate (links.map fun l => { l with active := false }) ('#' :: sec.id))
    else markSections scrollPosition rest links

/-- The function `updateActiveSection()`; `Except.error` holds the page as the
exception leaves it, `ticking = false` not reached. -/
def updateActiveSection (s : ScrollPage) : Except ScrollPage ScrollPage :=
  let scrollPosition := s.dom.scrollY + 150
  match markSections scrollPosition s.dom.sections s.dom.navLinks with
  | Except.ok links =>
    Except.ok
      { s with
        dom := { s.dom with navLinks := links },
        tickingActive := false,
        ranActive := s.ranActive + 1 }
  | Except.error links =>
    Except.error
      { s with
        dom := { s.dom with navLinks := links },
        ranActive := s.ranActive + 1 }

/-- The function `requestTick()`. -/
def requestTick (s : ScrollPage) : ScrollPage :=
  if !s.tickingActive then
    { s with
      frameQueue := s.frameQueue ++ [FrameCallback.updateActiveSection],
      tickingActive := true }
  else s

/-- The expression `window.pageYOffset || document.documentElement.scrollTop`. -/
def scrollTopOf (dom : ScrollDom) : ℚ :=
  if dom.scrollY ≠ 0 then dom.scrollY else dom.rootScrollTop

/-- The function `updateProgress()`. -/
def updateProgress (s : ScrollPage) : ScrollPage :=
  let scrollTop := scrollTopOf s.dom
  let scrollHeight := s.dom.scrollHeight - s.dom.clientHeight
  { s with
    dom := { s.dom with
      progress := some { scrollTop := scrollTop, scrollHeight := scrollHeight } },
    tickingProgress := false,
    ranProgress := s.ranProgress + 1 }

/-- The function `requestProgressUpdate()`. -/
def requestProgressUpdate (s : ScrollPage) : ScrollPage :=
  if !s.tickingProgress then
    { s with
      frameQueue := s.frameQueue ++ [FrameCallback.updateProgress],
      tickingProgress := true }
  else s

/-- The function `toggleScrollToTop()`. -/
def toggleScrollToTop (s : ScrollPage) : ScrollPage :=
  let scrollTop := scrollTopOf s.dom
  { s with
    dom := { s.dom with topVisible := decide (scrollTop > 300) },
    tickingTop := false,
    ranTop := s.ranTop + 1 }

/-- The function `requestScrollToggle()`. -/
def requestScrollToggle (s : ScrollPage) : ScrollPage :=
  if !s.tickingTop then
    { s with
      frameQueue := s.frameQueue ++ [FrameCallback.toggleScrollToTop],
      tickingTop := true }
  else s

/-- One callback of the animation-frame queue, run; an exception it throws is
reported by the browser and the frame goes on. -/
def runCallback (s : ScrollPage) : FrameCallback → ScrollPage
  | FrameCallback.updateActiveSection =>
    match updateActiveSection s with
    | Except.ok s' => s'
    | Except.error s' => s'
  | FrameCallback.updateProgress => updateProgress s
  | FrameCallback.toggleScrollToTop => toggleScrollToTop s

/-- What the browser does to the page. -/
inductive ScrollEvent where
  /-- The page is scrolled to these positions and `scroll` is dispatched. -/
  | scroll (scrollY rootScrollTop : ℚ)
  /-- The browser runs the callbacks scheduled for the next frame. -/
  | animationFrame
  deriving DecidableEq, Repr

/-- One event.  A `scroll` reaches the three listeners in the order they were
added; a frame takes the queue as it stands and runs its callbacks in order. -/
def scrollStep (s : ScrollPage) : ScrollEvent → ScrollPage
  | ScrollEvent.scroll scrollY rootScrollTop =>
    let s := { s with dom := { s.dom with scrollY := scrollY, rootScrollTop := rootScrollTop } }
    requestScrollToggle (requestProgressUpdate (requestTick s))
  | ScrollEvent.animationFrame =>
    s.frameQueue.foldl runCallback { s with frameQueue := [] }

/-- A sequence of events. -/
def scrollPlay (s : ScrollPage) (events : List ScrollEvent) : ScrollPage :=
  events.foldl scrollStep s

/-- The variable `ticking` that goes with a callback. -/
def ScrollPage.ticking (s : ScrollPage) : FrameCallback → Bool
  | FrameCallback.updateActiveSection => s.tickingActive
  | FrameCallback.updateProgress => s.tickingProgress
  | FrameCallback.toggleScrollToTop => s.tickingTop

/-- How many times a callback has run. -/
def ScrollPage.ran (s : ScrollPage) : FrameCallback → Nat
  | FrameCallback.updateActiveSection => s.ranActive
  | FrameCallback.updateProgress => s.ranProgress
  | FrameCallback.toggleScrollToTop => s.ranTop

/-- How many times a callback stands in the animation-frame queue: the
recomputations of its feature that are pending. -/
def ScrollPage.pending (s : ScrollPage) (cb : FrameCallback) : Nat :=
  s.frameQueue.count cb

/-- Every section id of the document is plain. -/
def PlainSections (dom : ScrollDom) : Prop :=
  ∀ sec ∈ dom.sections, plainId sec.id = true

instance (dom : ScrollDom) : Decidable (PlainSections dom) := by
  unfold PlainSections; infer_instance

/-- The coalescing invariant, for each callback: it does not stand in the
animation-frame queue when the `ticking` of its feature is false; it stands
there at most once; and it stands there when `ticking` is true, which for
`updateActiveSection` is claimed only of a document whose section ids are
plain. -/
def Coalesced (s : ScrollPage) : Prop :=
  ∀ cb, (s.ticking cb = false → s.pending cb = 0)
    ∧ s.pending cb ≤ 1
    ∧ ((cb = FrameCallback.updateActiveSection → PlainSections s.dom) →
        s.ticking cb = true → s.pending cb = 1)

/-- A document with one section, whose id is `a"b`, 600 pixels high at the
top of the page. -/
def quotedIdDom : ScrollDom :=
  { scrollY := 0, rootScrollTop := 0, scrollHeight := 600, clientHeight := 400,
    sections := [{ offsetTop := 0, offsetHeight := 600, id := ['a', Char.ofNat 34, 'b'] }],
    navLinks := [{ href := "#top".toList, active := true }],
    progress := none, topVisible := false }

/-! ## The announcement region of `accessibility.js` -/

/-- The announcement region and the timers of `announceToScreenReader`. -/
structure Announcer where
  /-- The clock, in milliseconds. -/
  now : Nat
  /-- The text `announcementRegion.textContent`. -/
  textContent : JSString
  /-- The times at which the timers set by `setTimeout(..., 1000)` and not yet
  run are due. -/
  timers : List Nat
  deriving DecidableEq, Repr

/-- The function `addAnnouncementRegion()`, at time `now`: the region is the
element with id `announcement-region`, with the text it has, or a new, empty
one; `window.announceToScreenReader` is installed and no timer is set. -/
def addAnnouncementRegion (existing : Option JSString) (now : Nat) : Announcer :=
  match existing with
  | some text => { now := now, textContent := text, timers := [] }
  | none => { now := now, textContent := [], timers := [] }

/-- The function `window.announceToScreenReader(message)`. -/
def announceToScreenReader (a : Announcer) (message : JSString) : Announcer :=
  { a with textContent := message, timers := a.timers ++ [a.now + 1000] }

/-- Time passes by `ms` milliseconds: every timer due by then has run its
callback `announcementRegion.textContent = ""` and is gone. -/
def Announcer.wait (a : Announcer) (ms : Nat) : Announcer :=
  { now := a.now + ms,
    textContent := if a.timers.any (fun due => due ≤ a.now + ms) then [] else a.textContent,
    timers := a.timers.filter fun due => a.now + ms < due }

/-- What happens to the region: a call, or time passing. -/
inductive AnnounceEvent where
  | call (message : JSString)
  | wait (ms : Nat)
  deriving DecidableEq, Repr

/-- One event. -/
def announceStep (a : Announcer) : AnnounceEvent → Announcer
  | AnnounceEvent.call message => announceToScreenReader a message
  | AnnounceEvent.wait ms => a.wait ms

/-- A sequence of events. -/
def announcePlay (a : Announcer) (events : List AnnounceEvent) : Announcer :=
  events.foldl announceStep a

/-- The cookie that `setCookie(this.themeKey, theme)` asks the browser to
store: host-only, on the path `/`. -/
def writtenCookie (theme : JSString) : Cookie :=
  { name := themeKey, value := theme, path := "/".toList, domain := none }

/-! ## The scanner of `split` -/

theorem startsWith_append (p t : JSString) : startsWith (p ++ t) p = true := by
  induction p with
  | nil => cases t <;> rfl
  | cons c p ih => simp [startsWith, ih]

theorem splitGo_skip (sep x t acc : JSString) :
    splitGo sep (x ++ t) x.length acc = splitGo sep t 0 acc := by
  induction x with
  | nil => rfl
  | cons c x ih => simpa [splitGo] using ih

theorem splitGo_pass (sep x t : JSString) (hx : ';' ∉ x) (acc : JSString) :
    splitGo (';' :: sep) (x ++ t) 0 acc = splitGo (';' :: sep) t 0 (x.reverse ++ acc) := by
  induction x generalizing acc with
  | nil => rfl
  | cons c x ih =>
    have hc : c ≠ ';' := fun h => hx (by simp [h])
    have hx2 : ';' ∉ x := fun h => hx (by simp [h])
    simp [splitGo, startsWith, hc, ih hx2]

theorem splitGo_match (sep t acc : JSString) (hsep : sep ≠ []) :
    splitGo sep (sep ++ t) 0 acc = acc.reverse :: splitGo sep t 0 [] := by
  cases sep with
  | nil => exact absurd rfl hsep
  | cons c s =>
    have h := startsWith_append (c :: s) t
    simp only [List.cons_append] at h ⊢
    simp only [splitGo, h, if_true, List.length_cons, Nat.add_sub_cancel]
    rw [splitGo_skip]

theorem startsWith_name (name n rest : JSString) (h1 : '=' ∉ name) (h2 : '=' ∉ n)
    (h : startsWith (n ++ '=' :: rest) (name ++ ['=']) = true) : n = name := by
  induction name generalizing n with
  | nil =>
    cases n with
    | nil => rfl
    | cons c n =>
      simp [startsWith] at h
      simp [h] at h2
  | cons a name ih =>
    cases n with
    | nil =>
      simp [startsWith] at h
      simp [← h.1] at h1
    | cons c n =>
      simp [startsWith] at h
      have := ih n (fun h => h1 (by simp [h])) (fun h => h2 (by simp [h])) h.2
      simp [h.1, this]

theorem head_splitGo_semicolon (t acc : JSString) :
    (splitGo [';'] t 0 acc).head? = some (acc.reverse ++ t.takeWhile (· != ';')) := by
  induction t generalizing acc with
  | nil => simp [splitGo]
  | cons c t ih =>
    by_cases hc : c = ';'
    · simp [splitGo, startsWith, hc]
    · simp [splitGo, startsWith, hc, ih]

/-! ## Reading a cookie back -/

theorem serializeJar_cons (c : Cookie) (rest : CookieJar) :
    serializeJar (c :: rest) = cookiePair c ++ chunks rest := by
  induction rest generalizing c with
  | nil => simp [serializeJar, chunks, List.intercalate]
  | cons d rest ih =>
    have := ih d
    simp [serializeJar, List.intercalate, chunks] at this ⊢
    rw [this]

/-- One step of the scan of `getCookie` over a cookie of another name. -/
theorem splitGo_chunk_other (name : JSString) (hn : '=' ∉ name) (c : Cookie)
    (rest : CookieJar) (hc : ';' ∉ c.name ∧ '=' ∉ c.name ∧ ';' ∉ c.value)
    (hname : c.name ≠ name) (acc : JSString) :
    splitGo (';' :: ' ' :: (name ++ ['='])) (chunks (c :: rest)) 0 acc
      = splitGo (';' :: ' ' :: (name ++ ['='])) (chunks rest) 0
          ((' ' :: cookiePair c).reverse ++ ';' :: acc) := by
  have hno : startsWith (c.name ++ '=' :: (c.value ++ chunks rest)) (name ++ ['=']) = false := by
    cases h : startsWith (c.name ++ '=' :: (c.value ++ chunks rest)) (name ++ ['=']) with
    | false => rfl
    | true => exact absurd (startsWith_name name c.name _ hn hc.2.1 h) hname
  have hpass : ';' ∉ ' ' :: cookiePair c := by
    simp [cookiePair, hc.1, hc.2.2]
  have e : chunks (c :: rest) = ';' :: ((' ' :: cookiePair c) ++ chunks rest) := by
    simp [chunks]
  have hstep : splitGo (';' :: ' ' :: (name ++ ['=']))
        (';' :: ((' ' :: cookiePair c) ++ chunks rest)) 0 acc
      = splitGo (';' :: ' ' :: (name ++ ['='])) ((' ' :: cookiePair c) ++ chunks rest) 0
          (';' :: acc) := by
    simp [splitGo, startsWith, cookiePair, hno]
  rw [e, hstep, splitGo_pass _ _ _ hpass]

/-- One step of the scan of `getCookie` over a cookie called `name`. -/
theorem splitGo_chunk_same (name : JSString) (c : Cookie) (rest : CookieJar)
    (hc : ';' ∉ c.value) (hname : c.name = name) (acc : JSString) :
    splitGo (';' :: ' ' :: (name ++ ['='])) (chunks (c :: rest)) 0 acc
      = acc.reverse :: splitGo (';' :: ' ' :: (name ++ ['='])) (chunks rest) 0 c.value.reverse := by
  have e : chunks (c :: rest)
      = (';' :: ' ' :: (name ++ ['='])) ++ (c.value ++ chunks rest) := by
    simp [chunks, cookiePair, hname]
  rw [e, splitGo_match _ _ _ (by simp), splitGo_pass _ _ _ hc]
  simp

/-- The scan of `getCookie` yields one piece more than there are cookies called
`name`. -/
theorem length_splitGo_chunks (name : JSString) (hn : '=' ∉ name) (jar : CookieJar)
    (hjar : CharsOk jar) (acc : JSString) :
    (splitGo (';' :: ' ' :: (name ++ ['='])) (chunks jar) 0 acc).length
      = (jarFind jar name).length + 1 := by
  induction jar generalizing acc with
  | nil => simp [chunks, splitGo, jarFind]
  | cons c rest ih =>
    have hc := hjar c (by simp)
    have hrest : CharsOk rest := fun d hd => hjar d (by simp [hd])
    by_cases hname : c.name = name
    · rw [splitGo_chunk_same name c rest hc.2.2 hname]
      simp [jarFind, hname, ih hrest]
    · rw [splitGo_chunk_other name hn c rest hc hname, ih hrest]
      simp [jarFind, hname]

/-- With no cookie called `name`, the scan of `getCookie` yields the whole
text. -/
theorem splitGo_chunks_absent (name : JSString) (hn : '=' ∉ name) (jar : CookieJar)
    (hjar : CharsOk jar) (habs : jarFind jar name = []) (acc : JSString) :
    splitGo (';' :: ' ' :: (name ++ ['='])) (chunks jar) 0 acc = [acc.reverse ++ chunks jar] := by
  induction jar generalizing acc with
  | nil => simp [chunks, splitGo]
  | cons c rest ih =>
    have hc := hjar c (by simp)
    have hrest : CharsOk rest := fun d hd => hjar d (by simp [hd])
    by_cases hname : c.name = name
    · simp [jarFind, hname] at habs
    · have habs2 : jarFind rest name = [] := by simpa [jarFind, hname] using habs
      rw [splitGo_chunk_other name hn c rest hc hname, ih hrest habs2]
      simp [chunks]

/-- With one cookie called `name`, the scan of `getCookie` yields two pieces,
the second starting with the value of that cookie. -/
theorem splitGo_chunks_unique (name : JSString) (hn : '=' ∉ name) (jar : CookieJar)
    (hjar : CharsOk jar) (c : Cookie) (hone : jarFind jar name = [c]) (acc : JSString) :
    ∃ a rest, splitGo (';' :: ' ' :: (name ++ ['='])) (chunks jar) 0 acc = [a, c.value ++ rest]
      ∧ ';' ∉ c.value ∧ (rest = [] ∨ ∃ r, rest = ';' :: r) := by
  induction jar generalizing acc with
  | nil => simp [jarFind] at hone
  | cons d rest ih =>
    have hd := hjar d (by simp)
    have hrest : CharsOk rest := fun e he => hjar e (by simp [he])
    by_cases hname : d.name = name
    · have h2 : d = c ∧ jarFind rest name = [] := by simpa [jarFind, hname] using hone
      obtain ⟨rfl, habs⟩ := h2
      refine ⟨acc.reverse, chunks rest, ?_, hd.2.2, ?_⟩
      · rw [splitGo_chunk_same name d rest hd.2.2 hname,
          splitGo_chunks_absent name hn rest hrest habs]
        simp
      · cases rest with
        | nil => left; rfl
        | cons e rest => right; exact ⟨_, rfl⟩
    · have hone2 : jarFind rest name = [c] := by simpa [jarFind, hname] using hone
      rw [splitGo_chunk_other name hn d rest hd hname]
      exact ih hrest hone2 _

/-- On a jar that can be read, `getCookie(name)` is the value of the cookie
called `name` when there is exactly one, and `null` otherwise. -/
theorem getCookie_eq (p : Page) (name : JSString) (hn : '=' ∉ name)
    (hjar : CharsOk p.cookieJar) (hread : p.cookieReadThrows = false) :
    getCookie p name = Except.ok (lookupUnique p.cookieJar name) := by
  have hsep : ("; ".toList ++ name ++ "=".toList) = ';' :: ' ' :: (name ++ ['=']) := by simp
  have hne : (';' :: ' ' :: (name ++ ['='])) ≠ [] := by simp
  unfold getCookie Page.getDocumentCookie
  simp only [hread, hsep, jsSplit, hne, if_false, Bool.false_eq_true, bind, Except.bind, pure,
    Except.pure]
  cases hj : p.cookieJar with
  | nil =>
    have : startsWith [] (name ++ ['=']) = false := by cases name <;> rfl
    have e : serializeJar [] = [] := rfl
    simp [e, splitGo, startsWith, this, lookupUnique, jarFind]
  | cons c rest =>
    have hv : "; ".toList ++ serializeJar (c :: rest) = chunks (c :: rest) := by
      rw [serializeJar_cons]; simp [chunks]
    rw [hv]
    have hlen := length_splitGo_chunks name hn (c :: rest) (hj ▸ hjar) []
    cases hf : jarFind (c :: rest) name with
    | nil =>
      rw [hf] at hlen
      simp [hlen, lookupUnique, hf]
    | cons d more =>
      cases more with
      | nil =>
        obtain ⟨a, rest', hsplit, hv', hrest'⟩ :=
          splitGo_chunks_unique name hn (c :: rest) (hj ▸ hjar) d hf []
        have htw : (d.value ++ rest').takeWhile (· != ';') = d.value := by
          have h1 : ∀ x ∈ d.value, (x != ';') = true := by
            intro x hx
            simp only [bne_iff_ne, ne_eq]
            intro hxe
            exact hv' (hxe ▸ hx)
          rcases hrest' with h | ⟨r, h⟩
          · subst h
            simpa using List.takeWhile_eq_self_iff.mpr h1
          · subst h
            rw [List.takeWhile_append_of_pos h1]
            simp
        simp [hsplit, head_splitGo_semicolon, htw, lookupUnique, hf]
      | cons e more =>
        rw [hf] at hlen
        simp [hlen, lookupUnique, hf]

theorem storeTheme_eq (p : Page) (theme : JSString) :
    storeTheme p theme = Except.ok (storedPage p theme) := by
  unfold storeTheme storedPage setCookie Page.setDocumentCookie
  cases h : p.cookieWriteThrows <;> rfl

theorem applyTheme_eq (t : Controller) (theme : JSString) :
    applyTheme t theme = Except.ok (applied t theme) := by
  unfold applyTheme applied
  simp only [storeTheme_eq, bind, Except.bind, pure, Except.pure, updateMetaThemeColor,
    Controller.mapDocument, storedPage, Page.consoleWarn, themeColor]
  cases hw : t.page.cookieWriteThrows <;> cases hm : t.page.document.themeColorMetas <;>
    by_cases hl : theme = light <;> simp [hl, hw, hm]

theorem parseNameValue_themeKey (theme : JSString) (h : theme = light ∨ theme = dark) :
    parseNameValue (themeKey ++ "=".toList ++ theme) = (themeKey, theme) := by
  rcases h with h | h <;> subst h <;> rfl

theorem jarFind_jarPut (jar : CookieJar) (new : Cookie)
    (hone : (jarFind jar new.name).length ≤ 1)
    (hkey : ∀ c ∈ jar, c.name = new.name → c.domain = new.domain ∧ c.path = new.path) :
    jarFind (jarPut jar new) new.name = [new] := by
  induction jar with
  | nil => simp [jarPut, jarFind]
  | cons c rest ih =>
    by_cases hname : c.name = new.name
    · have hp := hkey c (by simp) hname
      have hrest : jarFind rest new.name = [] := by
        simp [jarFind, hname] at hone
        simpa [jarFind] using hone
      simp [jarPut, hname, hp.1, hp.2, jarFind] at hrest ⊢
      exact hrest
    · have hone2 : (jarFind rest new.name).length ≤ 1 := by
        simpa [jarFind, hname] using hone
      have := ih hone2 (fun d hd => hkey d (by simp [hd]))
      simp [jarPut, hname, jarFind] at this ⊢
      exact this

theorem charsOk_jarPut (jar : CookieJar) (new : Cookie) (hjar : CharsOk jar)
    (hnew : ';' ∉ new.name ∧ '=' ∉ new.name ∧ ';' ∉ new.value) :
    CharsOk (jarPut jar new) := by
  induction jar with
  | nil =>
    intro c hc
    simp [jarPut] at hc
    subst hc
    exact hnew
  | cons d rest ih =>
    have hrest : CharsOk rest := fun e he => hjar e (by simp [he])
    intro c hc
    by_cases h : d.name = new.name ∧ d.domain = new.domain ∧ d.path = new.path
    · rw [jarPut, if_pos h] at hc
      rcases List.mem_cons.mp hc with rfl | hc
      · exact hnew
      · exact hrest c hc
    · rw [jarPut, if_neg h] at hc
      rcases List.mem_cons.mp hc with rfl | hc
      · exact hjar c (by simp)
      · exact ih hrest c hc

theorem toggleTheme_eq (t : Controller) : toggleTheme t = Except.ok (toggled t) := by
  simp only [toggleTheme, applyTheme_eq, bind, Except.bind, pure, Except.pure, toggled]

theorem init_eq (t : Controller) : init t = Except.ok (initialised t) := by
  simp only [init, applyTheme_eq, bind, Except.bind, pure, Except.pure, initialised]

theorem light_ne_dark : light ≠ dark := by decide

theorem currentTheme_toggled (t : Controller) :
    (toggled t).currentTheme = if t.currentTheme = light then dark else light := rfl

theorem currentTheme_createToggleButton (t : Controller) :
    (createToggleButton t).currentTheme = t.currentTheme := by
  unfold createToggleButton
  by_cases h1 : t.page.document.toggles ≠ []
  · rw [if_pos h1]
  · cases h2 : t.page.document.navbar <;> simp [h1, h2, Controller.mapDocument]

theorem currentTheme_initialised (t : Controller) :
    (initialised t).currentTheme = t.currentTheme := by
  show (createToggleButton (applied t t.currentTheme)).currentTheme = t.currentTheme
  rw [currentTheme_createToggleButton]
  rfl

theorem getCookie_of_throw (p : Page) (name : JSString) (h : p.cookieReadThrows = true) :
    getCookie p name = Except.error JSError.securityError := by
  simp [getCookie, Page.getDocumentCookie, h, bind, Except.bind, throw, throwThe,
    MonadExceptOf.throw]

theorem getCookie_total (p : Page) (name : JSString) (h : p.cookieReadThrows = false) :
    ∃ v, getCookie p name = Except.ok v := by
  unfold getCookie Page.getDocumentCookie
  simp only [h, Bool.false_eq_true, if_false, bind, Except.bind, pure, Except.pure]
  split <;> exact ⟨_, rfl⟩

theorem getStoredTheme_of_throw (p : Page) (h : p.cookieReadThrows = true) :
    getStoredTheme p
      = Except.ok (none, p.consoleWarn "Could not access cookies:".toList) := by
  unfold getStoredTheme
  rw [getCookie_of_throw p themeKey h]
  rfl

theorem getStoredTheme_of_ok (p : Page) (v : Option JSString)
    (h : getCookie p themeKey = Except.ok v) : getStoredTheme p = Except.ok (v, p) := by
  unfold getStoredTheme
  rw [h]
  rfl

theorem construct_of_throw (p : Page) (h : p.cookieReadThrows = true) :
    construct p = Except.ok (initialised
      { currentTheme := getSystemTheme p,
        page := p.consoleWarn "Could not access cookies:".toList }) := by
  simp only [construct, getStoredTheme_of_throw p h, bind, Except.bind, init_eq]
  rfl

theorem construct_of_ok (p : Page) (v : Option JSString)
    (h : getCookie p themeKey = Except.ok v) :
    construct p = Except.ok (initialised
      { currentTheme := jsOr v (getSystemTheme p), page := p }) := by
  simp only [construct, getStoredTheme_of_ok p v h, bind, Except.bind, init_eq]

theorem getSystemTheme_valid (p : Page) :
    getSystemTheme p = light ∨ getSystemTheme p = dark := by
  unfold getSystemTheme
  split
  · left; rfl
  · right; rfl

/-- The constructor returns, and with a theme read from the cookie that is
absent, empty, `light` or `dark` its `currentTheme` is `light` or `dark`. -/
theorem construct_valid (p : Page)
    (hstored : ∀ v, getCookie p themeKey = Except.ok v →
      v = none ∨ v = some [] ∨ v = some light ∨ v = some dark) :
    ∃ c, construct p = Except.ok c ∧ (c.currentTheme = light ∨ c.currentTheme = dark) := by
  cases hr : p.cookieReadThrows with
  | true =>
    refine ⟨_, construct_of_throw p hr, ?_⟩
    rw [currentTheme_initialised]
    exact getSystemTheme_valid p
  | false =>
    obtain ⟨v, hv⟩ := getCookie_total p themeKey hr
    refine ⟨_, construct_of_ok p v hv, ?_⟩
    rw [currentTheme_initialised]
    rcases hstored v hv with h | h | h | h <;> subst h
    · exact getSystemTheme_valid p
    · exact getSystemTheme_valid p
    · left; rfl
    · right; rfl

theorem toggleTimes_parity (t : Controller)
    (hvalid : t.currentTheme = light ∨ t.currentTheme = dark) (n : Nat) :
    ∃ t', toggleTimes t n = Except.ok t' ∧ (t'.currentTheme = light ∨ t'.currentTheme = dark)
      ∧ (t'.currentTheme = t.currentTheme ↔ Even n) := by
  induction n generalizing t with
  | zero => exact ⟨t, rfl, hvalid, by simp⟩
  | succ n ih =>
    have hv : (toggled t).currentTheme = light ∨ (toggled t).currentTheme = dark := by
      rw [currentTheme_toggled]
      split
      · right; rfl
      · left; rfl
    obtain ⟨t', hrun, hvalid', hiff⟩ := ih (toggled t) hv
    refine ⟨t', ?_, hvalid', ?_⟩
    · simp only [toggleTimes, toggleTheme_eq, bind, Except.bind]
      exact hrun
    · rw [Nat.even_add_one, ← hiff, currentTheme_toggled]
      rcases hvalid with h | h <;> rcases hvalid' with h' | h' <;>
        simp [h, h', light_ne_dark, light_ne_dark.symm]

/-! ## C1: parity of toggles -/

/-- C1, counterexample: over a store whose `theme-preference` cookie holds
`blue`, the constructed controller reports `blue`, and after two calls of
`toggleTheme()` (an even number) it reports `dark`, not the value it started
from. -/
theorem toggle_parity_fails_on_foreign_theme :
    ∃ c c', construct (pageWith [cookie "theme-preference" "blue" "/"] none) = Except.ok c
      ∧ toggleTimes c 2 = Except.ok c' ∧ Even 2
      ∧ getCurrentTheme c = "blue".toList ∧ getCurrentTheme c' = "dark".toList :=
  ⟨_, _, rfl, rfl, by decide, by decide, by decide⟩

/-- C1, amended: for every page whose `theme-preference` cookie, as
`getCookie` reads it, is absent, empty, `light` or `dark` (whatever the rest of
the store, the document and the colour-scheme signal), the constructor returns
a controller, `n` successive calls of `toggleTheme()` on it return, and
`getCurrentTheme()` then equals the value it had before the first call if and
only if `n` is even. -/
theorem toggleTheme_parity (p : Page)
    (hstored : ∀ v, getCookie p themeKey = Except.ok v →
      v = none ∨ v = some [] ∨ v = some light ∨ v = some dark) (n : Nat) :
    ∃ c c', construct p = Except.ok c ∧ toggleTimes c n = Except.ok c'
      ∧ (getCurrentTheme c' = getCurrentTheme c ↔ Even n) := by
  obtain ⟨c, hc, hvalid⟩ := construct_valid p hstored
  obtain ⟨c', hrun, _, hiff⟩ := toggleTimes_parity c hvalid n
  exact ⟨c, c', hc, hrun, hiff⟩

/-- C1, witness: a store with another cookie and `theme-preference=light`,
and three toggles. -/
theorem toggleTheme_parity_witness :
    (∀ v, getCookie (pageWith lightStore (some false)) themeKey = Except.ok v →
      v = none ∨ v = some [] ∨ v = some light ∨ v = some dark)
    ∧ ∃ c c', construct (pageWith lightStore (some false)) = Except.ok c
      ∧ toggleTimes c 3 = Except.ok c'
      ∧ (getCurrentTheme c' = getCurrentTheme c ↔ Even 3) :=
  have h : ∀ v, getCookie (pageWith lightStore (some false)) themeKey
      = Except.ok v → v = none ∨ v = some [] ∨ v = some light ∨ v = some dark := by
    intro v hv
    have e : getCookie (pageWith lightStore (some false)) themeKey
        = Except.ok (some light) := rfl
    rw [e] at hv
    cases hv
    exact Or.inr (Or.inr (Or.inl rfl))
  ⟨h, toggleTheme_parity _ h 3⟩

/-! ## C2: the persistence round trip -/

theorem cookieJar_storedPage (p : Page) (theme : JSString) (hw : p.cookieWriteThrows = false)
    (hth : theme = light ∨ theme = dark) :
    (storedPage p theme).cookieJar
      = jarPut p.cookieJar { name := themeKey, value := theme, path := "/".toList } := by
  have hexp : ¬ p.now + 365 * 24 * 60 * 60 * 1000 ≤ p.now := by omega
  simp only [storedPage, hw, Bool.false_eq_true, if_false, jarAssign,
    parseNameValue_themeKey theme hth, hexp]

theorem cookieJar_updateToggleButton (t : Controller) :
    (updateToggleButton t).page.cookieJar = t.page.cookieJar := rfl

theorem cookieJar_applied (t : Controller) (theme : JSString) :
    (applied t theme).page.cookieJar = (storedPage t.page theme).cookieJar := rfl

theorem setTheme_of_valid (t : Controller) (theme : JSString)
    (htheme : theme = light ∨ theme = dark) :
    setTheme t (JSValue.string theme) = Except.ok (updateToggleButton (applied t theme)) := by
  simp only [setTheme, htheme, if_true, applyTheme_eq, bind, Except.bind, pure, Except.pure]

theorem themeKey_chars : ';' ∉ themeKey ∧ '=' ∉ themeKey := by decide

theorem valid_chars (theme : JSString) (htheme : theme = light ∨ theme = dark) :
    ';' ∉ theme := by
  rcases htheme with h | h <;> subst h <;> decide

/-- C2, counterexample.  First half: the store holds a `theme-preference`
cookie on the path `/blog`.  The controller constructed there is set to
`light`; the write goes to the path `/` and leaves the other cookie, so that
`document.cookie` lists the name twice, `getCookie` returns `null`, and a
controller constructed afresh over that store, under a signal that reports
dark, starts as `dark`.  Second half: the same with a `theme-preference`
cookie on the path `/` that was set for the parent domain; the write, which
names no domain, adds a host-only cookie beside it. -/
theorem round_trip_fails_on_second_cookie :
    (∃ t t' c,
      construct (pageWith [cookie "theme-preference" "dark" "/blog"] (some false)) = Except.ok t
      ∧ setTheme t (JSValue.string light) = Except.ok t'
      ∧ serializeJar t'.page.cookieJar
          = "theme-preference=dark; theme-preference=light".toList
      ∧ getCookie (pageWith t'.page.cookieJar (some false)) themeKey = Except.ok none
      ∧ construct (pageWith t'.page.cookieJar (some false)) = Except.ok c
      ∧ getCurrentTheme c = dark)
    ∧ (∃ t t' c,
      construct (pageWith
          [{ cookie "theme-preference" "dark" "/" with domain := some "example.org".toList }]
          (some false)) = Except.ok t
      ∧ setTheme t (JSValue.string light) = Except.ok t'
      ∧ serializeJar t'.page.cookieJar
          = "theme-preference=dark; theme-preference=light".toList
      ∧ getCookie (pageWith t'.page.cookieJar (some false)) themeKey = Except.ok none
      ∧ construct (pageWith t'.page.cookieJar (some false)) = Except.ok c
      ∧ getCurrentTheme c = dark) :=
  ⟨⟨_, _, _, rfl, rfl, by decide, rfl, rfl, by decide⟩,
    ⟨_, _, _, rfl, rfl, by decide, rfl, rfl, by decide⟩⟩

theorem cookieJar_storedPage_cases (p : Page) (theme : JSString)
    (hth : theme = light ∨ theme = dark) :
    (storedPage p theme).cookieJar = p.cookieJar
      ∨ (storedPage p theme).cookieJar = jarPut p.cookieJar (writtenCookie theme) := by
  cases hw : p.cookieWriteThrows with
  | true =>
    left
    simp only [storedPage, hw, if_true]
    rfl
  | false =>
    right
    exact cookieJar_storedPage p theme hw hth

/-- C2, amended: let the cookie store be well formed and let its only cookie
named `theme-preference`, if it has one, be the cookie that `setCookie` itself
writes: host-only and on the path `/`.  Then for `theme` either `light` or
`dark`, `setTheme(theme)` returns; the store is then either as it was or the
prior store with the written cookie put in; and when it is the latter, the
write having been carried out, every controller constructed afresh on a page
with that store, whose cookies can be read, starts with `currentTheme` equal
to `theme`, whatever the document and the colour-scheme signal of that
page. -/
theorem setTheme_round_trip (t : Controller) (theme : JSString)
    (htheme : theme = light ∨ theme = dark) (hjar : CharsOk t.page.cookieJar)
    (hone : (jarFind t.page.cookieJar themeKey).length ≤ 1)
    (hown : ∀ c ∈ t.page.cookieJar, c.name = themeKey →
      c.domain = none ∧ c.path = "/".toList) :
    ∃ t', setTheme t (JSValue.string theme) = Except.ok t'
      ∧ (t'.page.cookieJar = t.page.cookieJar
        ∨ t'.page.cookieJar = jarPut t.page.cookieJar (writtenCookie theme))
      ∧ (t'.page.cookieJar = jarPut t.page.cookieJar (writtenCookie theme) →
          ∀ p : Page, p.cookieJar = t'.page.cookieJar → p.cookieReadThrows = false →
            ∃ c, construct p = Except.ok c ∧ getCurrentTheme c = theme) := by
  refine ⟨_, setTheme_of_valid t theme htheme, ?_, ?_⟩
  · rw [cookieJar_updateToggleButton, cookieJar_applied]
    exact cookieJar_storedPage_cases t.page theme htheme
  · intro hdone p hp hread
    have hj : p.cookieJar = jarPut t.page.cookieJar (writtenCookie theme) := by
      rw [hp, hdone]
    have hchars : CharsOk p.cookieJar := by
      rw [hj]
      exact charsOk_jarPut _ _ hjar
        ⟨themeKey_chars.1, themeKey_chars.2, valid_chars theme htheme⟩
    have hfind : jarFind p.cookieJar themeKey = [writtenCookie theme] := by
      rw [hj]
      exact jarFind_jarPut t.page.cookieJar (writtenCookie theme) hone hown
    have hget : getCookie p themeKey = Except.ok (some theme) := by
      rw [getCookie_eq p themeKey themeKey_chars.2 hchars hread]
      simp [lookupUnique, hfind, writtenCookie]
    refine ⟨_, construct_of_ok p _ hget, ?_⟩
    show (initialised _).currentTheme = theme
    rw [currentTheme_initialised]
    rcases htheme with h | h <;> subst h <;> rfl

/-- C2, witness: a controller showing `dark` over a store with another cookie
and `theme-preference=dark`, set to `light`; on this page the write is carried
out, which is the last line. -/
theorem setTheme_round_trip_witness :
    ((light = light ∨ light = dark)
      ∧ CharsOk darkStore
      ∧ (jarFind darkStore themeKey).length ≤ 1
      ∧ (∀ c ∈ darkStore, c.name = themeKey → c.domain = none ∧ c.path = "/".toList))
    ∧ (∃ t', setTheme { currentTheme := dark, page := pageWith darkStore (some false) }
          (JSValue.string light) = Except.ok t'
      ∧ (t'.page.cookieJar = darkStore
        ∨ t'.page.cookieJar = jarPut darkStore (writtenCookie light))
      ∧ (t'.page.cookieJar = jarPut darkStore (writtenCookie light) →
          ∀ p : Page, p.cookieJar = t'.page.cookieJar → p.cookieReadThrows = false →
            ∃ c, construct p = Except.ok c ∧ getCurrentTheme c = light))
    ∧ ∃ t', setTheme { currentTheme := dark, page := pageWith darkStore (some false) }
          (JSValue.string light) = Except.ok t'
      ∧ t'.page.cookieJar = jarPut darkStore (writtenCookie light) :=
  ⟨⟨by decide, by decide, by decide, by decide⟩,
    setTheme_round_trip { currentTheme := dark, page := pageWith darkStore (some false) }
      light (by decide) (by decide) (by decide) (by decide),
    ⟨_, rfl, by decide⟩⟩

/-! ## C3: the two-valued invariant -/

theorem getStoredTheme_total (p : Page) :
    ∃ v p', getStoredTheme p = Except.ok (v, p') := by
  cases hr : p.cookieReadThrows with
  | true => exact ⟨_, _, getStoredTheme_of_throw p hr⟩
  | false =>
    obtain ⟨v, hv⟩ := getCookie_total p themeKey hr
    exact ⟨_, _, getStoredTheme_of_ok p v hv⟩

/-- The media-query listener returns, and leaves `currentTheme` as it was or
sets it to `light` or `dark`. -/
theorem onSystemThemeChange_currentTheme (t : Controller) (eMatches : Bool) :
    ∃ t', onSystemThemeChange t eMatches = Except.ok t'
      ∧ (t'.currentTheme = t.currentTheme ∨ t'.currentTheme = light
        ∨ t'.currentTheme = dark) := by
  obtain ⟨v, p', h⟩ := getStoredTheme_total t.page
  unfold onSystemThemeChange
  simp only [h, bind, Except.bind, applyTheme_eq, pure, Except.pure]
  cases truthy v with
  | true => exact ⟨_, rfl, Or.inl rfl⟩
  | false =>
    refine ⟨_, rfl, Or.inr ?_⟩
    cases eMatches
    · right; rfl
    · left; rfl

theorem toggled_valid (t : Controller) :
    (toggled t).currentTheme = light ∨ (toggled t).currentTheme = dark := by
  rw [currentTheme_toggled]
  split
  · right; rfl
  · left; rfl

/-- Every action returns and keeps `currentTheme` within `light` and `dark`. -/
theorem step_valid (t : Controller) (a : Action)
    (hvalid : t.currentTheme = light ∨ t.currentTheme = dark) :
    ∃ t', step t a = Except.ok t' ∧ (t'.currentTheme = light ∨ t'.currentTheme = dark) := by
  cases a with
  | toggleTheme => exact ⟨_, toggleTheme_eq t, toggled_valid t⟩
  | setTheme theme =>
    cases theme with
    | string s =>
      by_cases hs : s = light ∨ s = dark
      · exact ⟨_, setTheme_of_valid t s hs, hs⟩
      · exact ⟨t, by simp [step, setTheme, hs, pure, Except.pure], hvalid⟩
    | undefined => exact ⟨t, rfl, hvalid⟩
    | null => exact ⟨t, rfl, hvalid⟩
    | boolean b => exact ⟨t, rfl, hvalid⟩
    | number n => exact ⟨t, rfl, hvalid⟩
  | systemThemeChange eMatches =>
    cases hp : t.page.prefersLight with
    | none => exact ⟨t, by simp only [step, hp]; rfl, hvalid⟩
    | some b =>
      have e : step t (Action.systemThemeChange eMatches)
          = if t.page.mediaListener = true then
              onSystemThemeChange
                { t with page := { t.page with prefersLight := some eMatches } } eMatches
            else pure { t with page := { t.page with prefersLight := some eMatches } } := by
        simp only [step, hp]
      rw [e]
      cases hm : t.page.mediaListener with
      | false => exact ⟨_, rfl, hvalid⟩
      | true =>
        obtain ⟨t', h, hcur⟩ := onSystemThemeChange_currentTheme
          { t with page := { t.page with prefersLight := some eMatches } } eMatches
        refine ⟨t', by simpa using h, ?_⟩
        rcases hcur with h1 | h1
        · rw [h1]; exact hvalid
        · exact h1
  | click insideToggle =>
    unfold step onClick
    cases t.page.clickListener <;> cases insideToggle
    · exact ⟨t, rfl, hvalid⟩
    · exact ⟨t, rfl, hvalid⟩
    · exact ⟨t, rfl, hvalid⟩
    · exact ⟨_, by simp [toggleTheme_eq], toggled_valid t⟩
  | keydown ctrlKey metaKey shiftKey key =>
    unfold step onKeydown
    cases t.page.keydownListener
    · exact ⟨t, rfl, hvalid⟩
    · by_cases hk : ((ctrlKey || metaKey) && shiftKey && key == "T".toList) = true
      · exact ⟨_, by simp only [hk, if_true, toggleTheme_eq], toggled_valid t⟩
      · exact ⟨t, by simp only [hk, if_true]; rfl, hvalid⟩

theorem run_valid (t : Controller) (actions : List Action)
    (hvalid : t.currentTheme = light ∨ t.currentTheme = dark) :
    ∃ t', run t actions = Except.ok t'
      ∧ (t'.currentTheme = light ∨ t'.currentTheme = dark) := by
  induction actions generalizing t with
  | nil => exact ⟨t, rfl, hvalid⟩
  | cons a rest ih =>
    obtain ⟨t1, h1, hv1⟩ := step_valid t a hvalid
    obtain ⟨t2, h2, hv2⟩ := ih t1 hv1
    exact ⟨t2, by simp only [run, h1, bind, Except.bind]; exact h2, hv2⟩

/-- C3, counterexample: over a store whose `theme-preference` cookie holds
`blue`, the constructor finishes with `currentTheme` equal to `blue`, which is
neither `light` nor `dark`. -/
theorem currentTheme_foreign_after_construct :
    ∃ c, construct (pageWith [cookie "theme-preference" "blue" "/"] (some true)) = Except.ok c
      ∧ getCurrentTheme c = "blue".toList
      ∧ getCurrentTheme c ≠ light ∧ getCurrentTheme c ≠ dark :=
  ⟨_, rfl, by decide, by decide, by decide⟩

/-- C3, amended: for every page whose `theme-preference` cookie, as
`getCookie` reads it, is absent, empty, `light` or `dark`, the constructor
returns a controller, every sequence of `toggleTheme()` and `setTheme(v)`
calls, colour-scheme changes, clicks and key presses on it returns, and
`currentTheme` is exactly one of `light` and `dark` after it (the empty
sequence is the moment the constructor has finished). -/
theorem currentTheme_light_or_dark (p : Page)
    (hstored : ∀ v, getCookie p themeKey = Except.ok v →
      v = none ∨ v = some [] ∨ v = some light ∨ v = some dark)
    (actions : List Action) :
    ∃ c c', construct p = Except.ok c ∧ run c actions = Except.ok c'
      ∧ (getCurrentTheme c' = light ∧ getCurrentTheme c' ≠ dark
        ∨ getCurrentTheme c' = dark ∧ getCurrentTheme c' ≠ light) := by
  obtain ⟨c, hc, hvalid⟩ := construct_valid p hstored
  obtain ⟨c', hrun, hvalid'⟩ := run_valid c actions hvalid
  refine ⟨c, c', hc, hrun, ?_⟩
  rcases hvalid' with h | h
  · exact Or.inl ⟨h, by rw [show getCurrentTheme c' = c'.currentTheme from rfl, h]; decide⟩
  · exact Or.inr ⟨h, by rw [show getCurrentTheme c' = c'.currentTheme from rfl, h]; decide⟩

/-- C3, witness: an empty store under a signal that reports light, then a
toggle, a colour-scheme change, a rejected `setTheme` and a click. -/
theorem currentTheme_light_or_dark_witness :
    (∀ v, getCookie (pageWith [] (some true)) themeKey = Except.ok v →
      v = none ∨ v = some [] ∨ v = some light ∨ v = some dark)
    ∧ ∃ c c', construct (pageWith [] (some true)) = Except.ok c
      ∧ run c [Action.toggleTheme, Action.systemThemeChange false,
          Action.setTheme (JSValue.string "blue".toList), Action.click true] = Except.ok c'
      ∧ (getCurrentTheme c' = light ∧ getCurrentTheme c' ≠ dark
        ∨ getCurrentTheme c' = dark ∧ getCurrentTheme c' ≠ light) :=
  have h : ∀ v, getCookie (pageWith [] (some true)) themeKey = Except.ok v →
      v = none ∨ v = some [] ∨ v = some light ∨ v = some dark := by
    intro v hv
    have e : getCookie (pageWith [] (some true)) themeKey = Except.ok none := rfl
    rw [e] at hv
    cases hv
    exact Or.inl rfl
  ⟨h, currentTheme_light_or_dark _ h _⟩

/-! ## C4: when the record is written -/

theorem cookieJar_createToggleButton (t : Controller) :
    (createToggleButton t).page.cookieJar = t.page.cookieJar := by
  unfold createToggleButton
  by_cases h1 : t.page.document.toggles ≠ []
  · rw [if_pos h1]
  · cases h2 : t.page.document.navbar <;> simp [h1, h2, Controller.mapDocument]

theorem cookieJar_initialised (t : Controller) :
    (initialised t).page.cookieJar = (storedPage t.page t.currentTheme).cookieJar := by
  show (createToggleButton (applied t t.currentTheme)).page.cookieJar = _
  rw [cookieJar_createToggleButton]
  rfl

/-- C4, the code at the failing input: on every page with a well-formed store
that holds no `theme-preference` cookie and can be read and written, the
constructor alone, with no call of `toggleTheme()` or `setTheme()`, leaves the
store holding the record `theme-preference`, with the theme of the
colour-scheme signal as its value. -/
theorem construct_writes_record (p : Page) (hjar : CharsOk p.cookieJar)
    (habsent : jarFind p.cookieJar themeKey = []) (hread : p.cookieReadThrows = false)
    (hwrite : p.cookieWriteThrows = false) :
    ∃ c, construct p = Except.ok c
      ∧ jarFind c.page.cookieJar themeKey
          = [{ name := themeKey, value := getSystemTheme p, path := "/".toList }] := by
  have hget : getCookie p themeKey = Except.ok none := by
    rw [getCookie_eq p themeKey themeKey_chars.2 hjar hread]
    simp [lookupUnique, habsent]
  refine ⟨_, construct_of_ok p none hget, ?_⟩
  rw [cookieJar_initialised]
  show jarFind (storedPage p (getSystemTheme p)).cookieJar themeKey = _
  rw [cookieJar_storedPage p _ hwrite (getSystemTheme_valid p)]
  refine jarFind_jarPut p.cookieJar
    { name := themeKey, value := getSystemTheme p, path := "/".toList } (by simp [habsent]) ?_
  intro c hc hname
  have : c ∈ jarFind p.cookieJar themeKey := by
    simp only [jarFind, List.mem_filter, decide_eq_true_eq]
    exact ⟨hc, hname⟩
  rw [habsent] at this
  exact absurd this (List.not_mem_nil c)

/-- C4, witness: the empty store, under a signal that reports dark. -/
theorem construct_writes_record_witness :
    (CharsOk (pageWith [] (some false)).cookieJar
      ∧ jarFind (pageWith [] (some false)).cookieJar themeKey = []
      ∧ (pageWith [] (some false)).cookieReadThrows = false
      ∧ (pageWith [] (some false)).cookieWriteThrows = false)
    ∧ ∃ c, construct (pageWith [] (some false)) = Except.ok c
      ∧ jarFind c.page.cookieJar themeKey
          = [{ name := themeKey,
               value := getSystemTheme (pageWith [] (some false)),
               path := "/".toList }] :=
  ⟨⟨by decide, by decide, rfl, rfl⟩,
    construct_writes_record (pageWith [] (some false))
      (by decide) (by decide) rfl rfl⟩

/-! ## C5: the colour-scheme listener -/

theorem getStoredTheme_eq (p : Page) (hjar : CharsOk p.cookieJar)
    (hread : p.cookieReadThrows = false) :
    getStoredTheme p = Except.ok (lookupUnique p.cookieJar themeKey, p) :=
  getStoredTheme_of_ok p _ (getCookie_eq p themeKey themeKey_chars.2 hjar hread)

theorem toggles_applied (t : Controller) (theme : JSString) :
    (applied t theme).page.document.toggles = t.page.document.toggles := by
  unfold applied storedPage
  cases t.page.cookieWriteThrows <;> rfl

theorem toggles_refreshed (t : Controller) (theme : JSString) :
    (updateToggleButton (applied t theme)).page.document.toggles
      = t.page.document.toggles.map (refreshToggle theme) := by
  show (applied t theme).page.document.toggles.map (refreshToggle theme) = _
  rw [toggles_applied]

/-- C5, counterexample.  First half: the controller is constructed over a
store holding `theme-preference=dark` on the path `/blog`; its own write adds
the record on the path `/`, so a record is persisted, and yet a change of the
signal to light changes `currentTheme` from `dark` to `light`.  Second half:
the controller is constructed over the empty store under a signal that reports
dark; a change of the signal to light leaves `currentTheme` at `dark`. -/
theorem system_change_claim_fails :
    (∃ c c', construct (pageWith [cookie "theme-preference" "dark" "/blog"] (some false))
          = Except.ok c
        ∧ jarFind c.page.cookieJar themeKey
            = [cookie "theme-preference" "dark" "/blog", cookie "theme-preference" "dark" "/"]
        ∧ step c (Action.systemThemeChange true) = Except.ok c'
        ∧ getCurrentTheme c = dark ∧ getCurrentTheme c' = light)
    ∧ (∃ c c', construct (pageWith [] (some false)) = Except.ok c
        ∧ step c (Action.systemThemeChange true) = Except.ok c'
        ∧ getCurrentTheme c = dark ∧ getCurrentTheme c' = dark) :=
  ⟨⟨_, _, rfl, by decide, rfl, by decide, by decide⟩,
    ⟨_, _, rfl, rfl, by decide, by decide⟩⟩

theorem truthy_lookupUnique (jar : CookieJar) :
    truthy (lookupUnique jar themeKey) = true ↔ HasRecord jar := by
  unfold lookupUnique HasRecord
  cases jarFind jar themeKey with
  | nil => simp [truthy]
  | cons c rest =>
    cases rest with
    | nil => cases hv : c.value <;> simp [truthy, hv]
    | cons d rest => simp [truthy]

theorem not_hasRecord_of_absent (jar : CookieJar) (h : jarFind jar themeKey = []) :
    ¬ HasRecord jar := by
  unfold HasRecord
  rw [h]
  simp

theorem hasRecord_of_unique (jar : CookieJar) (r : Cookie) (h : jarFind jar themeKey = [r])
    (hv : r.value ≠ []) : HasRecord jar := by
  unfold HasRecord
  rw [h]
  exact hv

/-- C5, amended: on a controller whose store is well formed and can be read,
the listener of colour-scheme changes returns; when the store holds exactly one
`theme-preference` record and its value is not empty, it changes nothing at
all; in every other case, that of no record among them, it sets `currentTheme`
to `light` when `e.matches` and to `dark` otherwise, and passes every toggle
through the refresh of `updateToggleButton()`. -/
theorem onSystemThemeChange_spec (t : Controller) (eMatches : Bool)
    (hjar : CharsOk t.page.cookieJar) (hread : t.page.cookieReadThrows = false) :
    ∃ t', onSystemThemeChange t eMatches = Except.ok t'
      ∧ (HasRecord t.page.cookieJar → t' = t)
      ∧ (¬ HasRecord t.page.cookieJar →
          getCurrentTheme t' = (if eMatches = true then light else dark)
          ∧ t'.page.document.toggles
              = t.page.document.toggles.map (refreshToggle (getCurrentTheme t')))
      ∧ (jarFind t.page.cookieJar themeKey = [] → ¬ HasRecord t.page.cookieJar) := by
  have hnil : jarFind t.page.cookieJar themeKey = [] → ¬ HasRecord t.page.cookieJar :=
    not_hasRecord_of_absent _
  unfold onSystemThemeChange
  simp only [getStoredTheme_eq t.page hjar hread, bind, Except.bind, applyTheme_eq, pure,
    Except.pure]
  cases htr : truthy (lookupUnique t.page.cookieJar themeKey) with
  | true =>
    have hrec := (truthy_lookupUnique _).mp htr
    exact ⟨t, rfl, fun _ => rfl, fun h => absurd hrec h, hnil⟩
  | false =>
    have hrec : ¬ HasRecord t.page.cookieJar := by
      intro h
      rw [(truthy_lookupUnique _).mpr h] at htr
      cases htr
    refine ⟨_, rfl, fun h => absurd h hrec, fun _ => ?_, hnil⟩
    exact ⟨rfl, toggles_refreshed _ _⟩

/-- C5, witness: a controller showing `dark` over a store without the record,
and a change of the signal to light. -/
theorem onSystemThemeChange_spec_witness :
    (CharsOk (pageWith [cookie "lang" "en" "/"] (some false)).cookieJar
      ∧ (pageWith [cookie "lang" "en" "/"] (some false)).cookieReadThrows = false)
    ∧ ∃ t', onSystemThemeChange
          { currentTheme := dark, page := pageWith [cookie "lang" "en" "/"] (some false) } true
          = Except.ok t'
      ∧ (HasRecord (pageWith [cookie "lang" "en" "/"] (some false)).cookieJar →
          t' = { currentTheme := dark, page := pageWith [cookie "lang" "en" "/"] (some false) })
      ∧ (¬ HasRecord (pageWith [cookie "lang" "en" "/"] (some false)).cookieJar →
          getCurrentTheme t' = (if true = true then light else dark)
          ∧ t'.page.document.toggles
              = (pageWith [cookie "lang" "en" "/"] (some false)).document.toggles.map
                  (refreshToggle (getCurrentTheme t')))
      ∧ (jarFind (pageWith [cookie "lang" "en" "/"] (some false)).cookieJar themeKey = [] →
          ¬ HasRecord (pageWith [cookie "lang" "en" "/"] (some false)).cookieJar) :=
  ⟨⟨by decide, rfl⟩,
    onSystemThemeChange_spec
      { currentTheme := dark, page := pageWith [cookie "lang" "en" "/"] (some false) } true
      (by decide) rfl⟩

/-! ## C6: the toggle affordances after a toggle -/

theorem toggles_toggled (t : Controller) :
    (toggled t).page.document.toggles
      = t.page.document.toggles.map (refreshToggle (toggled t).currentTheme) :=
  toggles_refreshed t _

theorem refreshToggle_aria (theme : JSString) (g : ToggleElement) :
    (g.icon ≠ none →
      (refreshToggle theme g).ariaLabel = some (switchLabel theme)
      ∧ (refreshToggle theme g).ariaPressed
          = some (if theme = light then "false".toList else "true".toList))
    ∧ (g.icon = none →
      (refreshToggle theme g).ariaLabel = g.ariaLabel
      ∧ (refreshToggle theme g).ariaPressed = g.ariaPressed) := by
  obtain ⟨ariaLabel, title, ariaPressed, icon, text, iconInText⟩ := g
  cases icon <;> cases text <;> simp [refreshToggle]

/-- C6, counterexample: the document holds a toggle without an `<i>` below it
and without `aria-label` and `aria-pressed`.  After the constructor and one
`toggleTheme()`, which makes the preference `light`, the toggle still has
neither attribute. -/
theorem toggle_without_icon_not_refreshed :
    ∃ t t', construct pageWithBareToggle = Except.ok t
      ∧ t.page.document.toggles = [bareToggle]
      ∧ toggleTheme t = Except.ok t'
      ∧ getCurrentTheme t' = light
      ∧ t'.page.document.toggles.map (fun g => (g.ariaLabel, g.ariaPressed)) = [(none, none)] :=
  ⟨_, _, rfl, by decide, rfl, by decide, by decide⟩

/-- C6, amended: `toggleTheme()` returns and leaves the preference `light` or
`dark`; the toggles of the document are the same elements in the same order;
each of them that has an `<i>` below it has then `aria-label` "Switch to light
theme" and `aria-pressed` "true" when the new preference is `dark`, and
"Switch to dark theme" and "false" when it is `light`; each of them that has
none keeps the `aria-label` and `aria-pressed` it had. -/
theorem toggleTheme_refreshes_toggles (t : Controller) :
    ∃ t', toggleTheme t = Except.ok t'
      ∧ (getCurrentTheme t' = light ∨ getCurrentTheme t' = dark)
      ∧ List.Forall₂
          (fun before after =>
            (before.icon ≠ none →
              (getCurrentTheme t' = dark →
                after.ariaLabel = some "Switch to light theme".toList
                ∧ after.ariaPressed = some "true".toList)
              ∧ (getCurrentTheme t' = light →
                after.ariaLabel = some "Switch to dark theme".toList
                ∧ after.ariaPressed = some "false".toList))
            ∧ (before.icon = none →
              after.ariaLabel = before.ariaLabel ∧ after.ariaPressed = before.ariaPressed))
          t.page.document.toggles t'.page.document.toggles := by
  refine ⟨toggled t, toggleTheme_eq t, toggled_valid t, ?_⟩
  rw [toggles_toggled, List.forall₂_map_right_iff, List.forall₂_same]
  intro g _
  have h := refreshToggle_aria (toggled t).currentTheme g
  refine ⟨fun hi => ⟨fun hd => ?_, fun hl => ?_⟩, h.2⟩
  · have := h.1 hi
    rw [show getCurrentTheme (toggled t) = (toggled t).currentTheme from rfl] at hd
    rw [hd] at this ⊢
    exact this
  · have := h.1 hi
    rw [show getCurrentTheme (toggled t) = (toggled t).currentTheme from rfl] at hl
    rw [hl] at this ⊢
    exact this

/-! ## C7: what `applyTheme` leaves behind -/

/-- C7: for every controller, whatever its document, and `pref` either `light`
or `dark`, `applyTheme(pref)` returns; after it the `data-theme` attribute of
the root element is `light` if and only if `pref` is `light` and is absent if
and only if `pref` is `dark`, `currentTheme` is `pref`, and the first
`theme-color` meta tag has content `#fbf1c7` when `pref` is `light` and
`#1d2021` when it is `dark`. -/
theorem applyTheme_spec (t : Controller) (pref : JSString)
    (hpref : pref = light ∨ pref = dark) :
    ∃ t', applyTheme t pref = Except.ok t'
      ∧ (t'.page.document.dataTheme = some light ↔ pref = light)
      ∧ (t'.page.document.dataTheme = none ↔ pref = dark)
      ∧ getCurrentTheme t' = pref
      ∧ (pref = light → t'.page.document.themeColorMetas.head? = some "#fbf1c7".toList)
      ∧ (pref = dark → t'.page.document.themeColorMetas.head? = some "#1d2021".toList) := by
  refine ⟨applied t pref, applyTheme_eq t pref, ?_⟩
  rcases hpref with h | h <;> subst h <;>
    simp [applied, getCurrentTheme, themeColor, light_ne_dark, light_ne_dark.symm]

/-- C7, witness: a controller showing `dark` on a page whose document has a
stale marker and two `theme-color` meta tags, and `pref` equal to `light`. -/
theorem applyTheme_spec_witness :
    (light = light ∨ light = dark)
    ∧ ∃ t', applyTheme
          { currentTheme := dark,
            page := { pageWith [] none with
              document := { plainDocument with
                dataTheme := some "sepia".toList,
                themeColorMetas := ["#ffffff".toList, "#000000".toList] } } }
          light = Except.ok t'
      ∧ (t'.page.document.dataTheme = some light ↔ light = light)
      ∧ (t'.page.document.dataTheme = none ↔ light = dark)
      ∧ getCurrentTheme t' = light
      ∧ (light = light → t'.page.document.themeColorMetas.head? = some "#fbf1c7".toList)
      ∧ (light = dark → t'.page.document.themeColorMetas.head? = some "#1d2021".toList) :=
  ⟨Or.inl rfl, applyTheme_spec _ light (Or.inl rfl)⟩

/-! ## C8: the initial preference -/

/-- C8, counterexample.  First half: the store holds `theme-preference=` with
an empty value and the signal reports light; a record exists and the reference
resolution is its value, the empty string, while the constructor resolves
`light`.  Second half: the store holds `theme-preference=light` on the paths
`/blog` and `/` and the signal reports dark; the reference resolution is
`light`, while the constructor resolves `dark`. -/
theorem resolution_differs_from_reference :
    (∃ c, construct (pageWith [cookie "theme-preference" "" "/"] (some true)) = Except.ok c
        ∧ getCurrentTheme c = light
        ∧ referenceResolution (pageWith [cookie "theme-preference" "" "/"] (some true)) = [])
    ∧ (∃ c, construct (pageWith [cookie "theme-preference" "light" "/blog",
            cookie "theme-preference" "light" "/"] (some false)) = Except.ok c
        ∧ getCurrentTheme c = dark
        ∧ referenceResolution (pageWith [cookie "theme-preference" "light" "/blog",
            cookie "theme-preference" "light" "/"] (some false)) = light) :=
  ⟨⟨_, rfl, by decide, by decide⟩, ⟨_, rfl, by decide, by decide⟩⟩

/-- C8, amended: on every page with a well-formed store the constructor
returns, and the preference it starts with is: the value of the
`theme-preference` record when the store can be read, holds exactly one such
record, and that value is not empty; in every other case `light` exactly when
the environment reports a light colour-scheme preference, and `dark` when it
reports dark, reports nothing, or `matchMedia` is unavailable. -/
theorem construct_resolution (p : Page) (hjar : CharsOk p.cookieJar) :
    ∃ c, construct p = Except.ok c
      ∧ (p.cookieReadThrows = false →
          ∀ r, jarFind p.cookieJar themeKey = [r] → r.value ≠ [] →
            getCurrentTheme c = r.value)
      ∧ (p.cookieReadThrows = true ∨ ¬ HasRecord p.cookieJar →
          getCurrentTheme c = if p.prefersLight = some true then light else dark) := by
  have hsys : getSystemTheme p = if p.prefersLight = some true then light else dark := by
    unfold getSystemTheme
    cases hp : p.prefersLight with
    | none => simp
    | some b => cases b <;> simp
  cases hread : p.cookieReadThrows with
  | true =>
    refine ⟨_, construct_of_throw p hread, fun h => (by cases h), fun _ => ?_⟩
    show (initialised _).currentTheme = _
    rw [currentTheme_initialised]
    exact hsys
  | false =>
    have hget := getCookie_eq p themeKey themeKey_chars.2 hjar hread
    refine ⟨_, construct_of_ok p _ hget, fun _ r hr hv => ?_, fun h => ?_⟩
    · show (initialised _).currentTheme = _
      rw [currentTheme_initialised]
      show jsOr (lookupUnique p.cookieJar themeKey) (getSystemTheme p) = r.value
      unfold lookupUnique
      rw [hr]
      cases hrv : r.value with
      | nil => exact absurd hrv hv
      | cons x xs => simp [hrv, jsOr]
    · show (initialised _).currentTheme = _
      rw [currentTheme_initialised]
      show jsOr (lookupUnique p.cookieJar themeKey) (getSystemTheme p) = _
      have hrec : ¬ HasRecord p.cookieJar := by
        rcases h with h | h
        · cases h
        · exact h
      have hfalse : truthy (lookupUnique p.cookieJar themeKey) = false := by
        cases htr : truthy (lookupUnique p.cookieJar themeKey) with
        | false => rfl
        | true => exact absurd ((truthy_lookupUnique _).mp htr) hrec
      rw [← hsys]
      cases hl : lookupUnique p.cookieJar themeKey with
      | none => rfl
      | some v =>
        cases v with
        | nil => rfl
        | cons x xs => simp [hl, truthy] at hfalse

/-- C8, witness: a store with another cookie and `theme-preference=light`,
under a signal that reports dark. -/
theorem construct_resolution_witness :
    CharsOk (pageWith lightStore (some false)).cookieJar
    ∧ ∃ c, construct (pageWith lightStore (some false)) = Except.ok c
      ∧ ((pageWith lightStore (some false)).cookieReadThrows = false →
          ∀ r, jarFind (pageWith lightStore (some false)).cookieJar themeKey = [r] →
            r.value ≠ [] → getCurrentTheme c = r.value)
      ∧ ((pageWith lightStore (some false)).cookieReadThrows = true
          ∨ ¬ HasRecord (pageWith lightStore (some false)).cookieJar →
          getCurrentTheme c
            = if (pageWith lightStore (some false)).prefersLight = some true then light
              else dark) :=
  ⟨by decide,
    construct_resolution
      (pageWith lightStore (some false))
      (by decide)⟩

/-! ## C9: a cookie write that throws -/

theorem storedPage_of_throw (p : Page) (theme : JSString) (h : p.cookieWriteThrows = true) :
    storedPage p theme = p.consoleWarn "Could not store theme preference:".toList := by
  simp only [storedPage, h, if_true]

/-- C9: on every controller whose cookie write throws, `toggleTheme()` returns
a controller and no exception; `currentTheme` is then `dark` if it was `light`
and `light` otherwise, so it differs from what it was; the `data-theme`
attribute is `light` exactly when the new `currentTheme` is `light` and is
absent otherwise; one warning, "Could not store theme preference:", has been
added to the console; and the store is as it was. -/
theorem toggleTheme_when_write_throws (t : Controller)
    (hthrow : t.page.cookieWriteThrows = true) :
    ∃ t', toggleTheme t = Except.ok t'
      ∧ getCurrentTheme t' = (if getCurrentTheme t = light then dark else light)
      ∧ getCurrentTheme t' ≠ getCurrentTheme t
      ∧ (t'.page.document.dataTheme = some light ↔ getCurrentTheme t' = light)
      ∧ (t'.page.document.dataTheme = none ↔ getCurrentTheme t' ≠ light)
      ∧ t'.page.warnings = t.page.warnings ++ ["Could not store theme preference:".toList]
      ∧ t'.page.cookieJar = t.page.cookieJar := by
  refine ⟨toggled t, toggleTheme_eq t, rfl, ?_, ?_, ?_, ?_, ?_⟩
  · show (toggled t).currentTheme ≠ t.currentTheme
    rw [currentTheme_toggled]
    by_cases h : t.currentTheme = light
    · simp [h, light_ne_dark.symm]
    · simp only [h, if_false]
      exact fun h' => h h'.symm
  · show (applied t _).page.document.dataTheme = some light ↔ (toggled t).currentTheme = light
    rw [currentTheme_toggled]
    by_cases h : t.currentTheme = light <;>
      simp [applied, h, light_ne_dark, light_ne_dark.symm]
  · show (applied t _).page.document.dataTheme = none ↔ (toggled t).currentTheme ≠ light
    rw [currentTheme_toggled]
    by_cases h : t.currentTheme = light <;>
      simp [applied, h, light_ne_dark, light_ne_dark.symm]
  · show (storedPage t.page _).warnings = _
    rw [storedPage_of_throw _ _ hthrow]
    rfl
  · show (storedPage t.page _).cookieJar = _
    rw [storedPage_of_throw _ _ hthrow]
    rfl

/-- C9, witness: a controller showing `dark` on a page whose cookie writes
throw. -/
theorem toggleTheme_when_write_throws_witness :
    ({ currentTheme := dark,
       page := { pageWith [] (some false) with cookieWriteThrows := true } }
      : Controller).page.cookieWriteThrows = true
    ∧ ∃ t', toggleTheme
          { currentTheme := dark,
            page := { pageWith [] (some false) with cookieWriteThrows := true } }
          = Except.ok t'
      ∧ getCurrentTheme t' = (if getCurrentTheme
            ({ currentTheme := dark,
               page := { pageWith [] (some false) with cookieWriteThrows := true } }
              : Controller) = light then dark else light)
      ∧ getCurrentTheme t' ≠ getCurrentTheme
            ({ currentTheme := dark,
               page := { pageWith [] (some false) with cookieWriteThrows := true } }
              : Controller)
      ∧ (t'.page.document.dataTheme = some light ↔ getCurrentTheme t' = light)
      ∧ (t'.page.document.dataTheme = none ↔ getCurrentTheme t' ≠ light)
      ∧ t'.page.warnings
          = ({ currentTheme := dark,
               page := { pageWith [] (some false) with cookieWriteThrows := true } }
              : Controller).page.warnings ++ ["Could not store theme preference:".toList]
      ∧ t'.page.cookieJar
          = ({ currentTheme := dark,
               page := { pageWith [] (some false) with cookieWriteThrows := true } }
              : Controller).page.cookieJar :=
  ⟨rfl, toggleTheme_when_write_throws _ rfl⟩

/-! ## C10: `setTheme` -/

/-- C10: `setTheme(v)` returns for every value `v` and raises no error.  When
`v` is neither the string `light` nor the string `dark`, the controller and its
page are exactly as before: `currentTheme`, the `data-theme` marker, the
cookie store, the `theme-color` meta tags, every toggle, and the log of
dispatched `themeChanged` events.  When `v` is `light` or `dark`,
`currentTheme` is `v` afterwards. -/
theorem setTheme_spec (t : Controller) (v : JSValue) :
    ∃ t', setTheme t v = Except.ok t'
      ∧ (v ≠ JSValue.string light ∧ v ≠ JSValue.string dark →
          t' = t ∧ t'.page.dispatched = t.page.dispatched)
      ∧ (v = JSValue.string light ∨ v = JSValue.string dark →
          JSValue.string (getCurrentTheme t') = v) := by
  cases v with
  | string s =>
    by_cases hs : s = light ∨ s = dark
    · refine ⟨_, setTheme_of_valid t s hs, fun h => ?_, fun _ => rfl⟩
      rcases hs with h' | h' <;> subst h' <;> simp at h
    · refine ⟨t, by simp [setTheme, hs, pure, Except.pure], fun _ => ⟨rfl, rfl⟩,
        fun h => ?_⟩
      simp only [JSValue.string.injEq] at h
      exact absurd h hs
  | undefined => exact ⟨t, rfl, fun _ => ⟨rfl, rfl⟩, fun h => by simp at h⟩
  | null => exact ⟨t, rfl, fun _ => ⟨rfl, rfl⟩, fun h => by simp at h⟩
  | boolean b => exact ⟨t, rfl, fun _ => ⟨rfl, rfl⟩, fun h => by simp at h⟩
  | number n => exact ⟨t, rfl, fun _ => ⟨rfl, rfl⟩, fun h => by simp at h⟩

/-! ## C11: loading the script more than once -/

theorem construct_total (p : Page) : ∃ c, construct p = Except.ok c := by
  cases hr : p.cookieReadThrows with
  | true => exact ⟨_, construct_of_throw p hr⟩
  | false =>
    obtain ⟨v, hv⟩ := getCookie_total p themeKey hr
    exact ⟨_, construct_of_ok p v hv⟩

theorem initialiser_counts (w : Loader) :
    w.initialiser.constructed = w.constructed + 1
      ∧ w.initialiser.initialisers = w.initialisers
      ∧ w.initialiser.themeToggle ≠ none := by
  obtain ⟨c, hc⟩ := construct_total w.page
  simp [Loader.initialiser, hc]

theorem runInitialisers_counts (n : Nat) (w : Loader) :
    (Loader.runInitialisers n w).constructed = w.constructed + n
      ∧ (Loader.runInitialisers n w).initialisers = w.initialisers := by
  induction n generalizing w with
  | zero => exact ⟨rfl, rfl⟩
  | succ n ih =>
    obtain ⟨h1, h2⟩ := ih w.initialiser
    obtain ⟨h3, h4, _⟩ := initialiser_counts w
    refine ⟨?_, ?_⟩
    · show (Loader.runInitialisers n w.initialiser).constructed = _
      rw [h1, h3]; omega
    · show (Loader.runInitialisers n w.initialiser).initialisers = _
      rw [h2, h4]

theorem play_loads_before_ready (k : Nat) (w : Loader) (h : w.themeToggle = none) :
    w.play (List.replicate k LoadEvent.scriptLoad)
      = { w with initialisers := w.initialisers + k } := by
  induction k generalizing w with
  | zero => rfl
  | succ k ih =>
    have hl : w.loadScript = { w with initialisers := w.initialisers + 1 } := by
      simp [Loader.loadScript, h]
    show w.loadScript.play (List.replicate k LoadEvent.scriptLoad) = _
    rw [hl, ih { w with initialisers := w.initialisers + 1 } h]
    simp [Nat.add_assoc, Nat.add_comm 1 k]

theorem play_append (w : Loader) (xs ys : List LoadEvent) :
    w.play (xs ++ ys) = (w.play xs).play ys := by
  induction xs generalizing w with
  | nil => rfl
  | cons x xs ih => cases x <;> exact ih _

/-- C11, the code at the failing input: on every page, when the script is
loaded `k` times before `DOMContentLoaded` is dispatched, it has registered `k`
initialisers and `k` instances of `ThemeToggle` are constructed; with two
loads, two of each. -/
theorem loads_before_ready_all_construct (p : Page) (k : Nat) :
    ((Loader.fresh p).play
        (List.replicate k LoadEvent.scriptLoad ++ [LoadEvent.domContentLoaded])).initialisers = k
      ∧ ((Loader.fresh p).play
        (List.replicate k LoadEvent.scriptLoad ++ [LoadEvent.domContentLoaded])).constructed = k := by
  rw [play_append, play_loads_before_ready k _ rfl]
  have h := runInitialisers_counts k
    { page := p, themeToggle := none, initialisers := k, domReady := true, constructed := 0 }
  simp only [Nat.zero_add] at h
  simpa [Loader.play, Loader.domContentLoaded, Loader.fresh] using h.symm

/-! ## C12: one recomputation per frame -/

theorem coalesced_installed (dom : ScrollDom) : Coalesced (ScrollPage.installed dom) := by
  intro cb
  cases cb <;> simp [ScrollPage.installed, ScrollPage.ticking, ScrollPage.pending]

theorem sections_installed (dom : ScrollDom) :
    (ScrollPage.installed dom).dom.sections = dom.sections := rfl

theorem requestTick_spec (s : ScrollPage) (h : Coalesced s) :
    Coalesced (requestTick s) ∧ (∀ cb, (requestTick s).ran cb = s.ran cb)
      ∧ (requestTick s).dom = s.dom := by
  have hA := h FrameCallback.updateActiveSection
  have hP := h FrameCallback.updateProgress
  have hT := h FrameCallback.toggleScrollToTop
  simp only [ScrollPage.pending, ScrollPage.ticking] at hA hP hT
  refine ⟨fun cb => ?_, fun cb => ?_, ?_⟩
  · cases ht : s.tickingActive <;> cases cb <;>
      simp_all [requestTick, ScrollPage.pending, ScrollPage.ticking, List.count_append]
  · cases ht : s.tickingActive <;> cases cb <;> simp [requestTick, ScrollPage.ran, ht]
  · cases ht : s.tickingActive <;> simp [requestTick, ht]

theorem requestProgressUpdate_spec (s : ScrollPage) (h : Coalesced s) :
    Coalesced (requestProgressUpdate s)
      ∧ (∀ cb, (requestProgressUpdate s).ran cb = s.ran cb)
      ∧ (requestProgressUpdate s).dom = s.dom := by
  have hA := h FrameCallback.updateActiveSection
  have hP := h FrameCallback.updateProgress
  have hT := h FrameCallback.toggleScrollToTop
  simp only [ScrollPage.pending, ScrollPage.ticking] at hA hP hT
  refine ⟨fun cb => ?_, fun cb => ?_, ?_⟩
  · cases ht : s.tickingProgress <;> cases cb <;>
      simp_all [requestProgressUpdate, ScrollPage.pending, ScrollPage.ticking, List.count_append]
  · cases ht : s.tickingProgress <;> cases cb <;>
      simp [requestProgressUpdate, ScrollPage.ran, ht]
  · cases ht : s.tickingProgress <;> simp [requestProgressUpdate, ht]

theorem requestScrollToggle_spec (s : ScrollPage) (h : Coalesced s) :
    Coalesced (requestScrollToggle s)
      ∧ (∀ cb, (requestScrollToggle s).ran cb = s.ran cb)
      ∧ (requestScrollToggle s).dom = s.dom := by
  have hA := h FrameCallback.updateActiveSection
  have hP := h FrameCallback.updateProgress
  have hT := h FrameCallback.toggleScrollToTop
  simp only [ScrollPage.pending, ScrollPage.ticking] at hA hP hT
  refine ⟨fun cb => ?_, fun cb => ?_, ?_⟩
  · cases ht : s.tickingTop <;> cases cb <;>
      simp_all [requestScrollToggle, ScrollPage.pending, ScrollPage.ticking, List.count_append]
  · cases ht : s.tickingTop <;> cases cb <;> simp [requestScrollToggle, ScrollPage.ran, ht]
  · cases ht : s.tickingTop <;> simp [requestScrollToggle, ht]

/-- A `scroll` event keeps the invariant, runs no recomputation and leaves the
sections as they are. -/
theorem scroll_spec (s : ScrollPage) (h : Coalesced s) (y r : ℚ) :
    Coalesced (scrollStep s (ScrollEvent.scroll y r))
      ∧ (∀ cb, (scrollStep s (ScrollEvent.scroll y r)).ran cb = s.ran cb)
      ∧ (scrollStep s (ScrollEvent.scroll y r)).dom.sections = s.dom.sections := by
  have h0 : Coalesced { s with dom := { s.dom with scrollY := y, rootScrollTop := r } } := h
  obtain ⟨h1, r1, d1⟩ := requestTick_spec _ h0
  obtain ⟨h2, r2, d2⟩ := requestProgressUpdate_spec _ h1
  obtain ⟨h3, r3, d3⟩ := requestScrollToggle_spec _ h2
  refine ⟨h3, fun cb => ?_, ?_⟩
  · show (requestScrollToggle _).ran cb = _
    rw [r3, r2, r1]
    rfl
  · show (requestScrollToggle _).dom.sections = _
    rw [d3, d2, d1]

/-- Over sections whose ids are plain, the `forEach` of
`updateActiveSection()` does not throw. -/
theorem markSections_plain (pos : ℚ) (sections : List Section)
    (h : ∀ sec ∈ sections, plainId sec.id = true) (links : List NavLink) :
    ∃ links', markSections pos sections links = Except.ok links' := by
  induction sections generalizing links with
  | nil => exact ⟨links, rfl⟩
  | cons sec rest ih =>
    have hsec : selectorThrows sec = false := by
      simp [selectorThrows, h sec (by simp)]
    have hrest : ∀ x ∈ rest, plainId x.id = true := fun x hx => h x (by simp [hx])
    unfold markSections
    split
    · simp only [hsec, Bool.false_eq_true, if_false]
      exact ih hrest _
    · exact ih hrest _

/-- One callback, run: the queue and the sections stay; only its own counter
goes up, by one; no `ticking` becomes true; and the `ticking` of its feature
is false afterwards, unless it is `updateActiveSection` over sections whose
ids are not all plain. -/
theorem runCallback_spec (s : ScrollPage) (c : FrameCallback) :
    (runCallback s c).frameQueue = s.frameQueue
      ∧ (runCallback s c).dom.sections = s.dom.sections
      ∧ (∀ cb, (runCallback s c).ran cb = s.ran cb + if cb = c then 1 else 0)
      ∧ (∀ cb, (runCallback s c).ticking cb = true →
          s.ticking cb = true
          ∧ (cb = c → cb = FrameCallback.updateActiveSection ∧ ¬ PlainSections s.dom)) := by
  cases c with
  | updateProgress =>
    refine ⟨rfl, rfl, fun cb => ?_, fun cb hcb => ?_⟩
    · cases cb <;> simp [runCallback, updateProgress, ScrollPage.ran]
    · cases cb <;> simp_all [runCallback, updateProgress, ScrollPage.ticking]
  | toggleScrollToTop =>
    refine ⟨rfl, rfl, fun cb => ?_, fun cb hcb => ?_⟩
    · cases cb <;> simp [runCallback, toggleScrollToTop, ScrollPage.ran]
    · cases cb <;> simp_all [runCallback, toggleScrollToTop, ScrollPage.ticking]
  | updateActiveSection =>
    cases hm : markSections (s.dom.scrollY + 150) s.dom.sections s.dom.navLinks with
    | ok links =>
      refine ⟨?_, ?_, fun cb => ?_, fun cb hcb => ?_⟩
      · simp [runCallback, updateActiveSection, hm]
      · simp [runCallback, updateActiveSection, hm]
      · cases cb <;> simp [runCallback, updateActiveSection, hm, ScrollPage.ran]
      · cases cb <;> simp_all [runCallback, updateActiveSection, ScrollPage.ticking]
    | error links =>
      have hplain : ¬ PlainSections s.dom := by
        intro hp
        obtain ⟨links', hl⟩ := markSections_plain (s.dom.scrollY + 150) s.dom.sections hp
          s.dom.navLinks
        rw [hl] at hm
        cases hm
      refine ⟨?_, ?_, fun cb => ?_, fun cb hcb => ?_⟩
      · simp [runCallback, updateActiveSection, hm]
      · simp [runCallback, updateActiveSection, hm]
      · cases cb <;> simp [runCallback, updateActiveSection, hm, ScrollPage.ran]
      · cases cb <;> simp_all [runCallback, updateActiveSection, ScrollPage.ticking]

/-- The callbacks of a queue, run in order. -/
theorem runCallbacks_spec (q : List FrameCallback) (s : ScrollPage) :
    (q.foldl runCallback s).frameQueue = s.frameQueue
      ∧ (q.foldl runCallback s).dom.sections = s.dom.sections
      ∧ (∀ cb, (q.foldl runCallback s).ran cb = s.ran cb + q.count cb)
      ∧ (∀ cb, (q.foldl runCallback s).ticking cb = true →
          s.ticking cb = true
          ∧ (cb ∈ q → cb = FrameCallback.updateActiveSection ∧ ¬ PlainSections s.dom)) := by
  induction q generalizing s with
  | nil => simp
  | cons c q ih =>
    obtain ⟨hq, hs, hr, ht⟩ := ih (runCallback s c)
    obtain ⟨hq1, hs1, hr1, ht1⟩ := runCallback_spec s c
    have hplain : PlainSections (runCallback s c).dom ↔ PlainSections s.dom := by
      unfold PlainSections
      rw [hs1]
    refine ⟨?_, ?_, fun cb => ?_, fun cb hcb => ?_⟩
    · rw [List.foldl_cons, hq, hq1]
    · rw [List.foldl_cons, hs, hs1]
    · rw [List.foldl_cons, hr cb, hr1 cb, List.count_cons]
      by_cases hc : cb = c
      · subst hc; simp; omega
      · have hc' : ¬ c = cb := fun e => hc e.symm
        simp [hc, hc']
    · rw [List.foldl_cons] at hcb
      obtain ⟨h1, h2⟩ := ht cb hcb
      obtain ⟨h3, h4⟩ := ht1 cb h1
      refine ⟨h3, fun hmem => ?_⟩
      rcases List.mem_cons.mp hmem with hc | hc
      · exact h4 hc
      · obtain ⟨h5, h6⟩ := h2 hc
        exact ⟨h5, fun hp => h6 (hplain.mpr hp)⟩

/-- A frame keeps the invariant and the sections, and runs each recomputation
as many times as it was pending, which is at most once. -/
theorem frame_spec (s : ScrollPage) (h : Coalesced s) :
    Coalesced (scrollStep s ScrollEvent.animationFrame)
      ∧ (∀ cb, (scrollStep s ScrollEvent.animationFrame).ran cb = s.ran cb + s.pending cb
        ∧ s.pending cb ≤ 1)
      ∧ (scrollStep s ScrollEvent.animationFrame).dom.sections = s.dom.sections := by
  obtain ⟨hq, hs, hr, ht⟩ := runCallbacks_spec s.frameQueue { s with frameQueue := [] }
  have hq' : (scrollStep s ScrollEvent.animationFrame).frameQueue = [] := hq
  have hs' : (scrollStep s ScrollEvent.animationFrame).dom.sections = s.dom.sections := hs
  have hr' : ∀ cb, (scrollStep s ScrollEvent.animationFrame).ran cb
      = s.ran cb + s.pending cb := by
    intro cb
    have := hr cb
    cases cb <;> exact this
  have ht' : ∀ cb, (scrollStep s ScrollEvent.animationFrame).ticking cb = true →
      s.ticking cb = true
      ∧ (cb ∈ s.frameQueue → cb = FrameCallback.updateActiveSection ∧ ¬ PlainSections s.dom) := by
    intro cb hcb
    have := ht cb hcb
    cases cb <;> exact this
  have hzero : ∀ cb, (scrollStep s ScrollEvent.animationFrame).pending cb = 0 := by
    intro cb
    simp only [ScrollPage.pending, hq', List.count_nil]
  refine ⟨fun cb => ⟨fun _ => hzero cb, by rw [hzero cb]; omega, fun hcond hcb => ?_⟩,
    fun cb => ⟨hr' cb, (h cb).2.1⟩, hs'⟩
  exfalso
  obtain ⟨h1, h2⟩ := ht' cb hcb
  have hcond' : cb = FrameCallback.updateActiveSection → PlainSections s.dom := by
    intro e
    have := hcond e
    unfold PlainSections at this ⊢
    rw [hs'] at this
    exact this
  have hone : s.pending cb = 1 := (h cb).2.2 hcond' h1
  have hmem : cb ∈ s.frameQueue := by
    apply List.count_pos_iff.mp
    show 0 < s.pending cb
    omega
  obtain ⟨h3, h4⟩ := h2 hmem
  exact h4 (hcond' h3)

theorem scrollStep_spec (s : ScrollPage) (h : Coalesced s) (e : ScrollEvent) :
    Coalesced (scrollStep s e) ∧ (scrollStep s e).dom.sections = s.dom.sections := by
  cases e with
  | scroll y r => exact ⟨(scroll_spec s h y r).1, (scroll_spec s h y r).2.2⟩
  | animationFrame => exact ⟨(frame_spec s h).1, (frame_spec s h).2.2⟩

theorem scrollPlay_spec (s : ScrollPage) (h : Coalesced s) (events : List ScrollEvent) :
    Coalesced (scrollPlay s events) ∧ (scrollPlay s events).dom.sections = s.dom.sections := by
  induction events generalizing s with
  | nil => exact ⟨h, rfl⟩
  | cons e rest ih =>
    obtain ⟨h1, s1⟩ := scrollStep_spec s h e
    obtain ⟨h2, s2⟩ := ih (scrollStep s e) h1
    exact ⟨h2, s2.trans s1⟩

theorem scrollPlay_scrolls (s : ScrollPage) (h : Coalesced s) (scrolls : List (ℚ × ℚ)) :
    Coalesced (scrollPlay s (scrolls.map fun p => ScrollEvent.scroll p.1 p.2))
      ∧ ∀ cb, (scrollPlay s (scrolls.map fun p => ScrollEvent.scroll p.1 p.2)).ran cb
          = s.ran cb := by
  induction scrolls generalizing s with
  | nil => exact ⟨h, fun _ => rfl⟩
  | cons p rest ih =>
    obtain ⟨h1, r1, _⟩ := scroll_spec s h p.1 p.2
    obtain ⟨h2, r2⟩ := ih (scrollStep s (ScrollEvent.scroll p.1 p.2)) h1
    refine ⟨h2, fun cb => ?_⟩
    show (scrollPlay (scrollStep s (ScrollEvent.scroll p.1 p.2)) _).ran cb = _
    rw [r2, r1]

theorem scrollPlay_append (s : ScrollPage) (xs ys : List ScrollEvent) :
    scrollPlay s (xs ++ ys) = scrollPlay (scrollPlay s xs) ys := by
  simp [scrollPlay, List.foldl_append]

/-- C12, counterexample: the document has one section, with id `a"b`, at the
top of the page.  After one `scroll` event and the next animation frame the
recomputation of the active section has run once, `document.querySelector` has
thrown before `ticking = false`, and the page is left with `ticking` true and
no recomputation pending; a further `scroll` event and frame run nothing. -/
theorem ticking_stuck_after_rejected_selector :
    (scrollPlay (ScrollPage.installed quotedIdDom)
        [ScrollEvent.scroll 10 10, ScrollEvent.animationFrame]).ticking
          FrameCallback.updateActiveSection = true
    ∧ (scrollPlay (ScrollPage.installed quotedIdDom)
        [ScrollEvent.scroll 10 10, ScrollEvent.animationFrame]).pending
          FrameCallback.updateActiveSection = 0
    ∧ (scrollPlay (ScrollPage.installed quotedIdDom)
        [ScrollEvent.scroll 10 10, ScrollEvent.animationFrame]).ran
          FrameCallback.updateActiveSection = 1
    ∧ (scrollPlay (ScrollPage.installed quotedIdDom)
        [ScrollEvent.scroll 10 10, ScrollEvent.animationFrame,
          ScrollEvent.scroll 20 20, ScrollEvent.animationFrame]).ran
          FrameCallback.updateActiveSection = 1 := by
  refine ⟨?_, ?_, ?_, ?_⟩ <;>
    norm_num [scrollPlay, scrollStep, ScrollPage.installed, quotedIdDom, requestTick,
      requestProgressUpdate, requestScrollToggle, runCallback, updateActiveSection,
      updateProgress, toggleScrollToTop, markSections, selectorThrows, plainId,
      ScrollPage.ticking, ScrollPage.pending, ScrollPage.ran]

/-- C12, amended: take the page as `initEnhancedScrollspy()` leaves it and any
sequence of `scroll` events and animation frames.  In the state reached, for
each of the three features (active-section highlight, progress bar,
scroll-to-top visibility): at most one recomputation is pending; when one is
pending the `ticking` of the feature is true; for the progress bar and the
scroll-to-top visibility, and for the active-section highlight when every
section id is plain (no double quote, backslash or line break), one is pending
exactly when `ticking` is true; any number of further `scroll` events runs no
recomputation; and those events followed by the next animation frame run the
recomputation at most once. -/
theorem scroll_updates_coalesced (dom : ScrollDom) (events : List ScrollEvent)
    (scrolls : List (ℚ × ℚ)) (cb : FrameCallback) :
    (scrollPlay (ScrollPage.installed dom) events).pending cb ≤ 1
      ∧ ((scrollPlay (ScrollPage.installed dom) events).pending cb = 1
          → (scrollPlay (ScrollPage.installed dom) events).ticking cb = true)
      ∧ ((cb = FrameCallback.updateActiveSection → PlainSections dom) →
          ((scrollPlay (ScrollPage.installed dom) events).pending cb = 1
            ↔ (scrollPlay (ScrollPage.installed dom) events).ticking cb = true))
      ∧ (scrollPlay (scrollPlay (ScrollPage.installed dom) events)
            (scrolls.map fun p => ScrollEvent.scroll p.1 p.2)).ran cb
          = (scrollPlay (ScrollPage.installed dom) events).ran cb
      ∧ (scrollPlay (scrollPlay (ScrollPage.installed dom) events)
            ((scrolls.map fun p => ScrollEvent.scroll p.1 p.2)
              ++ [ScrollEvent.animationFrame])).ran cb
          ≤ (scrollPlay (ScrollPage.installed dom) events).ran cb + 1 := by
  obtain ⟨h, hsec⟩ := scrollPlay_spec _ (coalesced_installed dom) events
  obtain ⟨h1, r1⟩ := scrollPlay_scrolls _ h scrolls
  obtain ⟨hoff, hle, hon⟩ := h cb
  have hpend : (scrollPlay (ScrollPage.installed dom) events).pending cb = 1
      → (scrollPlay (ScrollPage.installed dom) events).ticking cb = true := by
    intro hp
    cases ht : (scrollPlay (ScrollPage.installed dom) events).ticking cb with
    | true => rfl
    | false => rw [hoff ht] at hp; cases hp
  refine ⟨hle, hpend, fun hcond => ⟨hpend, hon ?_⟩, r1 cb, ?_⟩
  · intro e
    have := hcond e
    unfold PlainSections at this ⊢
    rw [hsec, sections_installed]
    exact this
  · rw [scrollPlay_append]
    obtain ⟨_, hf, _⟩ := frame_spec _ h1
    show (scrollStep _ ScrollEvent.animationFrame).ran cb ≤ _
    rw [(hf cb).1, r1 cb]
    have := (hf cb).2
    omega

/-! ## C13: how long an announcement is exposed -/

/-- Every pending timer is due at most 1000 ms from now. -/
theorem timers_within_second (existing : Option JSString) (t0 : Nat)
    (events : List AnnounceEvent) :
    ∀ due ∈ (announcePlay (addAnnouncementRegion existing t0) events).timers,
      due ≤ (announcePlay (addAnnouncementRegion existing t0) events).now + 1000 := by
  have hstep : ∀ (a : Announcer) (e : AnnounceEvent),
      (∀ due ∈ a.timers, due ≤ a.now + 1000) →
      ∀ due ∈ (announceStep a e).timers, due ≤ (announceStep a e).now + 1000 := by
    intro a e h due hdue
    cases e with
    | call message =>
      simp only [announceStep, announceToScreenReader, List.mem_append,
        List.mem_singleton] at hdue ⊢
      rcases hdue with hd | hd
      · exact h due hd
      · omega
    | wait ms =>
      simp only [announceStep, Announcer.wait, List.mem_filter] at hdue ⊢
      have := h due hdue.1
      omega
  have hplay : ∀ (events : List AnnounceEvent) (a : Announcer),
      (∀ due ∈ a.timers, due ≤ a.now + 1000) →
      ∀ due ∈ (announcePlay a events).timers, due ≤ (announcePlay a events).now + 1000 := by
    intro events
    induction events with
    | nil => intro a h; exact h
    | cons e rest ih => intro a h; exact ih (announceStep a e) (hstep a e h)
  apply hplay
  cases existing <;> simp [addAnnouncementRegion]

/-- The text of the region `d` ms after a call, with no call in between. -/
theorem textContent_after_call (a : Announcer) (message : JSString) (d : Nat) :
    ((announceToScreenReader a message).wait d).textContent
      = if d < 1000 ∧ ∀ due ∈ a.timers, a.now + d < due then message else [] := by
  simp only [announceToScreenReader, Announcer.wait, List.any_append, List.any_cons,
    List.any_nil, Bool.or_false]
  by_cases h1 : d < 1000
  · by_cases h2 : ∀ due ∈ a.timers, a.now + d < due
    · have hany : a.timers.any (fun due => decide (due ≤ a.now + d)) = false := by
        rw [List.any_eq_false]
        intro due hdue
        have := h2 due hdue
        simp only [decide_eq_true_eq]
        omega
      have hlast : decide (a.now + 1000 ≤ a.now + d) = false := by
        simp only [decide_eq_false_iff_not]; omega
      simp only [hany, hlast, Bool.or_false, Bool.false_eq_true, if_false]
      rw [if_pos ⟨h1, h2⟩]
    · have hany : a.timers.any (fun due => decide (due ≤ a.now + d)) = true := by
        rw [List.any_eq_true]
        push_neg at h2
        obtain ⟨due, hdue, hle⟩ := h2
        exact ⟨due, hdue, by simpa using hle⟩
      simp [hany, h2]
  · have hlast : decide (a.now + 1000 ≤ a.now + d) = true := by
      simp only [decide_eq_true_eq]; omega
    simp [hlast, h1]

/-- C13, counterexample: the region is installed at time 0; `A` is announced
at once and `B` 500 ms later.  After 500 ms more, 500 ms after the most recent
call, the timer of the first call has run and the region is empty, not `B`. -/
theorem second_message_cleared_early :
    (announcePlay (addAnnouncementRegion none 0)
        [AnnounceEvent.call "A".toList, AnnounceEvent.wait 500,
          AnnounceEvent.call "B".toList, AnnounceEvent.wait 499]).textContent = "B".toList
    ∧ (announcePlay (addAnnouncementRegion none 0)
        [AnnounceEvent.call "A".toList, AnnounceEvent.wait 500,
          AnnounceEvent.call "B".toList, AnnounceEvent.wait 500]).textContent = []
    ∧ (announcePlay (addAnnouncementRegion none 0)
        [AnnounceEvent.call "A".toList, AnnounceEvent.wait 500,
          AnnounceEvent.call "B".toList, AnnounceEvent.wait 500]).now = 1000 := by
  decide

/-- C13, amended: take the region as `addAnnouncementRegion()` leaves it and
any sequence of calls and waits, then one more call, of `message`.  With no
call in between, `d` ms after that call the region shows `message` exactly
when `d` is less than 1000 and no timer of an earlier call has come due by
then, and is empty otherwise, so it is empty once 1000 ms have passed since
the call.  When the call came after at least 1000 ms without a call, the
region shows `message` for the full 1000 ms and is empty from then on. -/
theorem announcement_exposure (existing : Option JSString) (t0 : Nat)
    (events : List AnnounceEvent) (message : JSString) (d quiet : Nat) :
    ((announceToScreenReader (announcePlay (addAnnouncementRegion existing t0) events)
        message).wait d).textContent
      = (if d < 1000
            ∧ ∀ due ∈ (announcePlay (addAnnouncementRegion existing t0) events).timers,
                (announcePlay (addAnnouncementRegion existing t0) events).now + d < due
          then message else [])
    ∧ ((announceToScreenReader
          ((announcePlay (addAnnouncementRegion existing t0) events).wait (1000 + quiet))
          message).wait d).textContent
      = (if d < 1000 then message else []) := by
  refine ⟨textContent_after_call _ message d, ?_⟩
  rw [textContent_after_call]
  have hbound := timers_within_second existing t0 events
  have hnone : ((announcePlay (addAnnouncementRegion existing t0) events).wait
      (1000 + quiet)).timers = [] := by
    simp only [Announcer.wait, List.filter_eq_nil_iff, decide_eq_true_eq]
    intro due hdue
    have := hbound due hdue
    omega
  simp [hnone]

end ThemeToggle
